/-
  Verification development for the pyauto spatio-temporal traffic-scene core.

  The Python source is shallowly embedded over:
  - rational numbers standing for Python floats (every float is a rational),
  - a parameterised record of transcendental math primitives (MathOps), since
    math.cos / math.sin / math.atan2 / numpy.linalg.norm are external,
    rational-valued float functions,
  - a parameterised record of 2-D geometry primitives (GeoOps), matching the
    external geometry library (shapely) that the design treats as a
    collaborating Geometry Adapter,
  - a Py monad whose second constructor models a raised Python exception.

  Entities are owlready2 individuals; they are identified by their unique IRI
  name and carry the sparse attributes the core reads.
-/
import Mathlib

set_option autoImplicit false

namespace PyAuto

abbrev Q := ℚ

/-- A planar point, as used for centroids and sample points. -/
structure Pt where
  x : Q
  y : Q
deriving DecidableEq, Repr

/-- Result of running a piece of Python code: a value, or a raised exception. -/
inductive Py (α : Type) where
  | val : α → Py α
  | exn : Py α
deriving DecidableEq, Repr

namespace Py

def bind {α β : Type} : Py α → (α → Py β) → Py β
  | val a, f => f a
  | exn, _ => exn

instance : Monad Py where
  pure := Py.val
  bind := Py.bind

@[simp] theorem bind_val {α β : Type} (a : α) (f : α → Py β) : Py.bind (Py.val a) f = f a := rfl

@[simp] theorem bind_exn {α β : Type} (f : α → Py β) : Py.bind (Py.exn : Py α) f = Py.exn := rfl

end Py

/-- Python float modulo (used as `x % 360`); for a positive modulus this is the
nonnegative remainder. -/
def qmod (x n : Q) : Q := x - n * (⌊x / n⌋ : ℤ)

/-- Python `int(...)` on a float: truncation toward zero. -/
def pyInt (x : Q) : ℤ := if 0 ≤ x then ⌊x⌋ else -⌊-x⌋

/-- Round-half-to-even to an integer, the rounding used by numpy.round. -/
def roundHE (x : Q) : ℤ :=
  let f : ℤ := ⌊x⌋
  let r : Q := x - f
  if r < 1/2 then f else if 1/2 < r then f + 1 else if Even f then f else f + 1

/-- numpy.round(x, d): round half to even at d decimal digits. -/
def pyRound (x : Q) (d : ℕ) : Q := (roundHE (x * 10 ^ d) : Q) / 10 ^ d

/-- numpy.arange(start, stop, step) for positive step: start + k * step while
strictly below stop. -/
def arangeQ (start stop step : Q) : List Q :=
  (List.range (max 0 (⌈(stop - start) / step⌉)).toNat).map (fun k => start + k * step)

/-- numpy.linspace(start, stop, num): num evenly spaced samples, endpoint
included (matching numpy for num greater than one; a single sample is start). -/
def linspaceQ (start stop : Q) (num : ℕ) : List Q :=
  if num = 0 then []
  else if num = 1 then [start]
  else (List.range num).map (fun k => start + k * ((stop - start) / (num - 1 : ℕ)))

/-- Python truthiness of an optional number: None and 0 are falsy. -/
def truthyOpt (o : Option Q) : Bool :=
  match o with
  | some x => x ≠ 0
  | none => false

/-- The transcendental float primitives of the Python math / numpy modules.
These are external collaborators; every Python float function is a
rational-valued function on rationals. Argument order matches the call sites:
atan2 receives the two Python arguments in order. -/
structure MathOps where
  cos : Q → Q
  sin : Q → Q
  atan2 : Q → Q → Q
  radians : Q → Q
  degrees : Q → Q
  norm2 : Q → Q → Q
  dist : Pt → Pt → Q

/-- The external 2-D geometry primitives (the Geometry Adapter of the design:
shapely in the source). `G` is the abstract geometry type. -/
structure GeoOps (G : Type) where
  union : G → G → G
  intersects : G → G → Bool
  intersection : G → G → G
  area : G → Q
  centroid : G → Pt
  distance : G → G → Q
  isPolygon : G → Bool
  rotate : G → Q → Pt → G
  translate : G → Q → Q → G
  buffer : G → Q → G
  pointOf : Pt → G
  polygonOf : List Pt → G
  lineOf : List Pt → G
  emptyPolygon : G
  within : G → G → Bool
  equalsG : G → G → Bool
  /-- isinstance(g, Point): the coordinates when g is a Point, none otherwise. -/
  asPoint : G → Option Pt
  /-- g.exterior coordinates for a Polygon; none when the geometry has no
  exterior (accessing it then raises). -/
  exteriorCoords : G → Option (List Pt)
  /-- The wkt.loads(wkt.dumps(.., output_dimension=2)).buffer(0) round trip. -/
  normalize2d : G → G
  /-- Left-back corner of a footprint (see get_left_back_point below). -/
  leftBack : G → Pt
  /-- Left-front corner of a footprint (see get_left_front_point below). -/
  leftFront : G → Pt

/-- An owlready2 individual with the sparse attributes read by the core.
Other individuals are referenced through their unique IRI `name`. -/
structure Entity (G : Type) where
  name : String
  is_a : List String
  /-- The parsed WKT geometry; none when absent or POLYGON EMPTY. -/
  hasGeometry : Option G
  has_yaw : Option Q
  has_yaw_rate : Option Q
  has_speed : Option Q
  has_velocity_x : Option Q
  has_velocity_y : Option Q
  has_velocity_z : Option Q
  has_height : Option Q
  has_length : Option Q
  has_visibility_range : Option Q
  drives : List String
  is_occluded_for_in_occlusion : List String
  is_dynamical : Bool
deriving DecidableEq

/-- A world of individuals (one scene). -/
abbrev World (G : Type) := List (Entity G)

/-- Resolve an individual by its IRI name (first match). -/
def findEnt {G : Type} (w : World G) (n : String) : Option (Entity G) :=
  w.find? (fun e => e.name == n)

/-- Spatial_Object.has_geometry: whether the object has a (non-empty) WKT
geometry. -/
def has_geometry {G : Type} (e : Entity G) : Bool := e.hasGeometry.isSome

/-- Spatial_Object.get_geometry: the shapely geometry, or None. -/
def get_geometry {G : Type} (e : Entity G) : Option G := e.hasGeometry

/-- Modelled from the spec: `get_centroid` is called throughout the core
(intersects_path_with, prediction) but its definition is not part of the
provided sources. Per the Geometry Adapter interface (§2) it returns the
centroid of the object's geometry, absent when the object has no geometry. -/
def get_centroid {G : Type} (ops : GeoOps G) (e : Entity G) : Option Pt :=
  e.hasGeometry.map ops.centroid

section DynamicalObject

variable {G : Type}

/-- Dynamical_Object._RELEVANT_LOWEST_SPEED (m/s). -/
def RELEVANT_LOWEST_SPEED : Q := 0.15

/-- Dynamical_Object._INTERSECTING_PATH_THRESHOLD (s). -/
def INTERSECTING_PATH_THRESHOLD : Q := 8

/-- Dynamical_Object._INTERSECTING_PATH_MAX_PET (s). -/
def INTERSECTING_PATH_MAX_PET : Q := 5

/-- Lines 246-258 of Dynamical_Object.prediction: the initial yaw and the
translation speed used by the prediction loop. With yaw absent both default
to 0; otherwise, for a non-parking entity with a stored speed, the speed is
max(10 * _RELEVANT_LOWEST_SPEED, has_speed). -/
def predictionYawSpeed (self : Entity G) : Q × Q :=
  match self.has_yaw with
  | none => (0, 0)
  | some y =>
    (y, match self.has_speed with
        | some s =>
          if "l4_de.Parking_Vehicle" ∉ self.is_a then max (RELEVANT_LOWEST_SPEED * 10) s
          else s
        | none => 0)

/-- Loop state of Dynamical_Object.prediction: the current geometry, yaw and
yaw rate, and the accumulated (geometry, time) samples. -/
structure PredSt (G : Type) where
  geo : Option G
  yaw : Q
  yaw_rate : Q
  acc : List (Option G × Q)

/-- One iteration of the prediction loop (lines 259-278). Rotating a missing
geometry, or reading `self.has_yaw + 180` when has_yaw is None, raises. -/
def predStep (mops : MathOps) (ops : GeoOps G) (w : World G) (self : Entity G)
    (geoC : Option Pt) (speed delta_t : Q) (st : PredSt G) (i : Q) : Py (PredSt G) :=
  let prev_yaw := st.yaw
  let yaw := prev_yaw + st.yaw_rate * delta_t
  let xoff := mops.cos (mops.radians yaw) * speed * delta_t
  let yoff := mops.sin (mops.radians yaw) * speed * delta_t
  match st.geo with
  | none => Py.exn
  | some g =>
    (if ops.isPolygon g then
      -- length := self.has_length, falling back to drives[0].has_length, then 0
      (match truthyOpt self.has_length, self.drives with
        | false, d :: _ =>
          match findEnt w d with
          | some e => Py.val e.has_length
          | none => Py.exn
        | _, _ => Py.val self.has_length) >>= fun lo =>
      let length := (match lo with
        | some L => if L ≠ 0 then L else 0
        | none => 0) * 0.4
      -- inv_yaw reads self.has_yaw directly: None + 180 raises TypeError
      match self.has_yaw with
      | none => Py.exn
      | some y =>
        let inv_yaw := qmod (mops.radians (y + 180)) 360
        match geoC with
        | none => Py.exn
        | some c =>
          Py.val (Pt.mk (c.x + length * mops.cos inv_yaw) (c.y + length * mops.sin inv_yaw))
    else
      match geoC with
      | none => Py.exn
      | some c => Py.val c) >>= fun center =>
    let g1 := ops.translate (ops.rotate g (yaw - prev_yaw) center) xoff yoff
    Py.val { geo := some g1, yaw := yaw,
             yaw_rate := st.yaw_rate * (1 - 0.4 * delta_t),
             acc := st.acc ++ [(some g1, i)] }

/-- Monadic fold of the prediction loop over the sampled times. -/
def predLoop (mops : MathOps) (ops : GeoOps G) (w : World G) (self : Entity G)
    (geoC : Option Pt) (speed delta_t : Q) : List Q → PredSt G → Py (PredSt G)
  | [], st => Py.val st
  | i :: rest, st =>
    predStep mops ops w self geoC speed delta_t st i >>= predLoop mops ops w self geoC speed delta_t rest

/-- Dynamical_Object.prediction (lines 228-279): the sampling-based constant
velocity, constant (decaying) yaw-rate prediction model. Returns the list of
(geometry, time) samples, or an exception when the Python code would raise. -/
def prediction (mops : MathOps) (ops : GeoOps G) (w : World G) (self : Entity G)
    (delta_t horizon : Q) : Py (List (Option G × Q)) :=
  let yaw_rate := self.has_yaw_rate.getD 0
  (match self.drives with
    | [] => Py.val (get_geometry self, get_centroid ops self)
    | d :: _ =>
      match findEnt w d with
      | some e => Py.val (get_geometry e, get_centroid ops e)
      | none => Py.exn) >>= fun gc =>
  let geo := gc.1
  let geoC := gc.2
  let ys := predictionYawSpeed self
  predLoop mops ops w self geoC ys.2 delta_t (arangeQ delta_t (horizon + delta_t) delta_t)
      { geo := geo, yaw := ys.1, yaw_rate := yaw_rate, acc := [(geo, 0)] } >>= fun st =>
  Py.val st.acc

end DynamicalObject

/-- Stable insertion of `a` after every element `b` with `le b a`. -/
def stableInsert {α : Type} (le : α → α → Bool) (a : α) : List α → List α
  | [] => [a]
  | b :: bs => if le b a then b :: stableInsert le a bs else a :: b :: bs

/-- Python sorted(..) with a key comparison: a stable ascending sort. All
stable sorts agree, so this is observationally the sort the source performs. -/
def pySorted {α : Type} (le : α → α → Bool) (l : List α) : List α :=
  l.foldl (fun acc a => stableInsert le a acc) []

/-- Value cached by intersects_path_with: (t_1, t_2, soonest intersection
point). The stored values are always tuples, so the None-check of the cache
read branch never fires. -/
abbrev IPWVal := Option Q × Option Q × Option Pt

/-- Swap of the cached triple, as stored for the reversed pair. -/
def swapV (v : IPWVal) : IPWVal := (v.2.1, v.1, v.2.2)

/-- The per-object dictionaries intersects_path_with_cached, combined into one
map keyed by the (owner name, other name) pair. -/
abbrev IPWCache := List ((String × String) × IPWVal)

def cacheFind (c : IPWCache) (k : String × String) : Option IPWVal :=
  (c.find? (fun e => e.1 == k)).map (·.2)

/-- Dictionary assignment: the new binding shadows any previous one. -/
def cacheSet (c : IPWCache) (k : String × String) (v : IPWVal) : IPWCache :=
  (k, v) :: c

section DynamicalObject2

variable {G : Type}

/-- The predicted footprint sequence used by intersects_path_with for an
entity (lines 189-196): the prediction model for a Dynamical_Object, else
the current geometry of `self` repeated at every sample time — note that the
non-dynamical fallback reads the geometry of `self` for both pred_1 (line 192)
and pred_2 (line 196). -/
def predFor (mops : MathOps) (ops : GeoOps G) (w : World G) (self ent : Entity G)
    (delta_t horizon : Q) : Py (List (Option G × Q)) :=
  if ent.is_dynamical then prediction mops ops w ent delta_t horizon
  else Py.val ((arangeQ delta_t (horizon + delta_t) delta_t).map (fun i => (get_geometry self, i)))

/-- pred_union = pred[0][0]; for g, _ in pred: pred_union = pred_union.union(g).
An empty list raises IndexError, a missing geometry raises on union. -/
def unionFoldAux (ops : GeoOps G) (acc : G) : List (Option G × Q) → Py G
  | [] => Py.val acc
  | (some g, _) :: rest => unionFoldAux ops (ops.union acc g) rest
  | (none, _) :: _ => Py.exn

def unionFold (ops : GeoOps G) : List (Option G × Q) → Py G
  | [] => Py.exn
  | (none, _) :: _ => Py.exn
  | l@((some g0, _) :: _) => unionFoldAux ops g0 l

/-- Inner loop of the candidate scan (lines 207-211). -/
def scanInner (ops : GeoOps G) (horizon : Q) (g1 : G) (t1 : Q) (u1 : G) :
    List (Option G × Q) → Py (List (Pt × Q × Q))
  | [] => Py.val []
  | (none, _) :: _ => Py.exn
  | (some g2, t2) :: rest =>
    if t1 + t2 ≤ horizon ∧ ops.intersects g2 u1 then
      let inter := ops.intersection g1 g2
      (if ops.area inter > 0 then
        scanInner ops horizon g1 t1 u1 rest >>= fun cs =>
          Py.val ((ops.centroid inter, t1, t2) :: cs)
      else scanInner ops horizon g1 t1 u1 rest)
    else scanInner ops horizon g1 t1 u1 rest

/-- Outer loop of the candidate scan (lines 205-211). -/
def scanOuter (ops : GeoOps G) (horizon : Q) (u1 u2 : G) (pred2 : List (Option G × Q)) :
    List (Option G × Q) → Py (List (Pt × Q × Q))
  | [] => Py.val []
  | (none, _) :: _ => Py.exn
  | (some g1, t1) :: rest =>
    if ops.intersects g1 u2 then
      scanInner ops horizon g1 t1 u1 pred2 >>= fun cs =>
      scanOuter ops horizon u1 u2 pred2 rest >>= fun csRest =>
      Py.val (cs ++ csRest)
    else scanOuter ops horizon u1 u2 pred2 rest

/-- Lines 189-217 of Dynamical_Object.intersects_path_with: build the two
predicted footprint sequences, union them, scan sampled pairs, and keep the
candidate minimising t_1 + t_2 (stable sort, first in scan order on ties). -/
def ipwCompute (mops : MathOps) (ops : GeoOps G) (w : World G) (self other : Entity G)
    (delta_t horizon : Q) : Py IPWVal :=
  predFor mops ops w self self delta_t horizon >>= fun pred1 =>
  predFor mops ops w self other delta_t horizon >>= fun pred2 =>
  unionFold ops pred1 >>= fun u1 =>
  unionFold ops pred2 >>= fun u2 =>
  (if ops.intersects u1 u2 then scanOuter ops horizon u1 u2 pred2 pred1
   else Py.val []) >>= fun candidates =>
  if candidates ≠ [] then
    let sorted := pySorted (fun a b => decide (a.2.1 + a.2.2 ≤ b.2.1 + b.2.2)) candidates
    match sorted with
    | [] => Py.val (none, none, none)
    | (p, t1, t2) :: _ => Py.val (some t1, some t2, some p)
  else Py.val (none, none, none)

/-- Dynamical_Object.intersects_path_with (lines 164-226). Returns the result
triple together with the updated caches. On a fresh computation the result is
stored for the (self, other) pair and, swapped, for the (other, other: self)
pair; a cached pair is answered from the cache without recomputation. -/
def intersects_path_with (mops : MathOps) (ops : GeoOps G) (w : World G)
    (self other : Entity G) (delta_t horizon : Q) (c : IPWCache) :
    Py (IPWVal × IPWCache) :=
  match cacheFind c (self.name, other.name) with
  | none =>
    if self.name ≠ other.name ∧ has_geometry self ∧ has_geometry other then
      let p1 := get_centroid ops self
      let p2 := get_centroid ops other
      (if p1 ≠ p2 then ipwCompute mops ops w self other delta_t horizon
       else Py.val (none, none, none)) >>= fun v =>
      Py.val (v, cacheSet (cacheSet c (self.name, other.name) v) (other.name, self.name) (swapV v))
    else Py.val ((none, none, none), c)
  | some v => Py.val (v, c)

/-- Dynamical_Object.get_speed: the stored speed, else the signed norm of the
velocity vector (sign from the velocity direction), else None. -/
def get_speed (mops : MathOps) (self : Entity G) : Option Q :=
  match self.has_speed with
  | some s => some s
  | none =>
    match self.has_velocity_x, self.has_velocity_y, self.has_velocity_z with
    | some vx, some vy, _ =>
      let angle := qmod (mops.degrees (mops.atan2 vy vx)) 360
      let sign : Q := if 90 < angle ∧ angle < 270 then -1 else 1
      some (sign * mops.norm2 vx vy)
    | _, _, _ => none

/-- The driving-relation guard of augment_intersecting_paths (lines 123-125):
both drive nothing, or self drives something that is not other, or other
drives something that is not self. -/
def drivesGuard (self other : Entity G) : Bool :=
  (self.drives = [] ∧ other.drives = []) ∨
  (self.drives ≠ [] ∧ other.name ∉ self.drives) ∨
  (other.drives ≠ [] ∧ self.name ∉ other.drives)

/-- Truthiness of get_speed(): a number that is neither None nor 0. -/
def speedTruthy (mops : MathOps) (self : Entity G) : Bool :=
  truthyOpt (get_speed mops self)

/-- Dynamical_Object.augment_intersecting_paths (lines 116-133). The guard is
written with Python operator precedence, under which `and` binds tighter than
`or`: the expression parses as
  (self != other and drive-guard and geometries and self.get_speed())
  or (0 > 0 and other.get_speed()) or (0 > 0),
so only the speed of self is actually tested. intersects_path_with is invoked
with its default delta_t = 0.25 and horizon = 10. Returns None (no
augmentation) when the guard fails, else the threshold test, or False when no
intersection time exists. -/
def augment_intersecting_paths (mops : MathOps) (ops : GeoOps G) (w : World G)
    (self other : Entity G) (c : IPWCache) : Py (Option Bool × IPWCache) :=
  if ((self.name ≠ other.name && drivesGuard self other && has_geometry self &&
        has_geometry other && speedTruthy mops self) ||
      (decide ((0 : Q) > 0) && speedTruthy mops other) ||
      decide ((0 : Q) > 0)) then
    intersects_path_with mops ops w self other (1/4) 10 c >>= fun r =>
    match r.1.1, r.1.2.1 with
    | some t_self, some t_other =>
      Py.val (some (decide (t_self + t_other < INTERSECTING_PATH_THRESHOLD ∧
                            |t_self - t_other| < INTERSECTING_PATH_MAX_PET)), r.2)
    | _, _ => Py.val (some false, r.2)
  else Py.val (none, c)

end DynamicalObject2

section SpatialObject

variable {G : Type}

/-- _SPATIAL_PREDICATE_THRESHOLD (m). -/
def SPATIAL_PREDICATE_THRESHOLD : Q := 50

/-- math.isclose with its default relative tolerance 1e-9 and zero absolute
tolerance. -/
def isclose (a b : Q) : Bool :=
  |a - b| ≤ max ((1 / 1000000000) * max |a| |b|) 0

/-- The angle used by the directional predicates (lines 258-260 and twins):
degrees(atan2(cos yaw, sin yaw) - atan2(dx, dy)) mod 360, where (dx, dy) is
the centroid of self minus the centroid of other. Note the source passes the
coordinates to atan2 in this (x, y) order. -/
def dirAngle (mops : MathOps) (otherYaw : Q) (p1 p2 : Pt) : Q :=
  qmod (mops.degrees (mops.atan2 (mops.cos (mops.radians otherYaw)) (mops.sin (mops.radians otherYaw)) -
        mops.atan2 (p1.x - p2.x) (p1.y - p2.y))) 360

/-- The shared guard of the directional predicates: distinct entities, both
with geometry, other with a yaw; within the spatial threshold and with
non-coinciding centroids. Returns the two centroids when the predicate body
runs, none when the method falls through returning None. -/
def dirGuard (mops : MathOps) (ops : GeoOps G) (self other : Entity G) : Option (Pt × Pt) :=
  if self.name ≠ other.name ∧ has_geometry self ∧ has_geometry other ∧ other.has_yaw.isSome then
    match get_geometry self, get_geometry other with
    | some gs, some go =>
      let p1 := ops.centroid gs
      let p2 := ops.centroid go
      if mops.dist p1 p2 ≤ SPATIAL_PREDICATE_THRESHOLD ∧
          ¬(isclose p1.x p2.x ∧ isclose p1.y p2.y) then some (p1, p2) else none
    | _, _ => none
  else none

/-- Spatial_Object.behind (lines 250-261): 90 < angle < 270. -/
def behind (mops : MathOps) (ops : GeoOps G) (self other : Entity G) : Option Bool :=
  match dirGuard mops ops self other, other.has_yaw with
  | some (p1, p2), some yaw =>
    let angle := dirAngle mops yaw p1 p2
    some (decide (90 < angle ∧ angle < 270))
  | _, _ => none

/-- Spatial_Object.left_of (lines 263-274): 0 < angle < 180. -/
def left_of (mops : MathOps) (ops : GeoOps G) (self other : Entity G) : Option Bool :=
  match dirGuard mops ops self other, other.has_yaw with
  | some (p1, p2), some yaw =>
    let angle := dirAngle mops yaw p1 p2
    some (decide (0 < angle ∧ angle < 180))
  | _, _ => none

/-- Spatial_Object.right_of (lines 276-287): 180 < angle < 360. -/
def right_of (mops : MathOps) (ops : GeoOps G) (self other : Entity G) : Option Bool :=
  match dirGuard mops ops self other, other.has_yaw with
  | some (p1, p2), some yaw =>
    let angle := dirAngle mops yaw p1 p2
    some (decide (180 < angle ∧ angle < 360))
  | _, _ => none

/-- Spatial_Object.in_front_of (lines 289-297): inside the guard the source
calls utils.in_front_of(p_1, p_2, other.has_yaw), but the extras.utils module
defines no function named in_front_of, so the call raises AttributeError. -/
def in_front_of (mops : MathOps) (ops : GeoOps G) (self other : Entity G) : Py (Option Bool) :=
  match dirGuard mops ops self other with
  | some _ => Py.exn
  | none => Py.val none

/-- Spatial_Object.has_accident_with (lines 336-344), under Python truthiness:
both heights present and nonzero, both geometries present and intersecting,
and neither entity among the drives of the other. -/
def has_accident_with (ops : GeoOps G) (self other : Entity G) : Bool :=
  truthyOpt self.has_height && truthyOpt other.has_height &&
  has_geometry self && has_geometry other &&
  (match get_geometry other, get_geometry self with
   | some go, some gs => ops.intersects go gs
   | _, _ => false) &&
  (decide (other.name ∉ self.drives) && decide (self.name ∉ other.drives))

/-- The nested loop of Scene.has_accident (lines 369-379): obj1 ranges over
the objects, obj2 over the earlier ones. -/
def has_accident_loop (ops : GeoOps G) : List (Entity G) → List (Entity G) → Bool
  | _, [] => false
  | seen, o :: rest =>
    seen.any (fun p => has_accident_with ops o p) || has_accident_loop ops (seen ++ [o]) rest

/-- Scene.has_accident over the spatial objects of a scene. -/
def scene_has_accident (ops : GeoOps G) (objs : List (Entity G)) : Bool :=
  has_accident_loop ops [] objs

end SpatialObject

section Observer

variable {G : Type}

/-- observer._DEFAULT_VISIBILITY (m). -/
def DEFAULT_VISIBILITY : Q := 50

/-- observer._OCCLUSION_SAMPLING_STEP (degrees). -/
def OCCLUSION_SAMPLING_STEP : Q := 0.25

/-- Modelled from the spec: `get_left_back_point` is called by the occlusion
engine but its definition is not part of the provided sources; per §2 it is a
Geometry Adapter query for a boundary corner point of the footprint. -/
def get_left_back_point (ops : GeoOps G) (e : Entity G) : Py Pt :=
  match e.hasGeometry with
  | some g => Py.val (ops.leftBack g)
  | none => Py.exn

/-- Modelled from the spec: `get_left_front_point`, as get_left_back_point. -/
def get_left_front_point (ops : GeoOps G) (e : Entity G) : Py Pt :=
  match e.hasGeometry with
  | some g => Py.val (ops.leftFront g)
  | none => Py.exn

/-- Observer.is_in_fov (lines 117-130), under Python truthiness of the
implicit None fall-through. -/
def is_in_fov (ops : GeoOps G) (self : Entity G) (self_geom : G) (other : Entity G)
    (fov : G) (ignore_height : Bool) : Bool :=
  if self.name ≠ other.name ∧ has_geometry other ∧
      ((∃ h, other.has_height = some h ∧ h > 0.1) ∨ ignore_height) then
    match get_geometry other with
    | some other_geom =>
      ops.intersects other_geom fov &&
      (ignore_height || !(ops.within self_geom other_geom || ops.within other_geom self_geom ||
                          ops.equalsG other_geom self_geom))
    | none => false
  else false

/-- min of a Python list of floats; raises on an empty list. -/
def listMin : List Q → Py Q
  | [] => Py.exn
  | x :: rest => Py.val (rest.foldl min x)

/-- max of a Python list of floats; raises on an empty list. -/
def listMax : List Q → Py Q
  | [] => Py.exn
  | x :: rest => Py.val (rest.foldl max x)

/-- list.index(x): index of the first occurrence. -/
def listIndex (l : List Q) (x : Q) : Option ℕ :=
  l.findIdx? (fun a => a == x)

/-- The body of get_occluded_areas for one object (lines 34-68): the angular
extent of the geometry `a` (the object footprint clipped to the FOV) seen from
the FOV centroid, the sampled visibility wedge beyond it, and the union of
that wedge with `a`. -/
def cutoffFor (mops : MathOps) (ops : GeoOps G) (fov : G) (visibility : Q) (a : G) : Py G :=
  (match ops.asPoint a with
   | some p => Py.val [p]
   | none =>
     match ops.exteriorCoords a with
     | some ps => Py.val ps
     | none => Py.exn) >>= fun points =>
  let fc := ops.centroid fov
  let angles := points.map (fun p => qmod (mops.degrees (mops.atan2 (p.y - fc.y) (p.x - fc.x))) 360)
  let y_points := points.map (·.y)
  listMin y_points >>= fun ymin =>
  listMax y_points >>= fun ymax =>
  (if ymin ≤ fc.y ∧ fc.y ≤ ymax ∧ (angles.filter (fun x => x < 90)) ≠ [] ∧
      (angles.filter (fun x => x > 270)) ≠ [] then
    listMin (angles.filter (fun x => x ≥ 180)) >>= fun mn =>
    listMax (angles.filter (fun x => x < 180)) >>= fun mx =>
    Py.val (mn, mx)
  else
    listMin angles >>= fun mn =>
    listMax angles >>= fun mx =>
    Py.val (mn, mx)) >>= fun mm =>
  let min_angle := mm.1
  let max_angle := mm.2
  let wedge := (arangeQ 0 (qmod (max_angle - min_angle) 360) OCCLUSION_SAMPLING_STEP).map
    (fun alpha =>
      let angle := qmod (min_angle + alpha) 360
      Pt.mk (visibility * mops.cos (mops.radians angle) + fc.x)
            (visibility * mops.sin (mops.radians angle) + fc.y))
  (match listIndex angles max_angle, listIndex angles min_angle with
   | some iMax, some iMin =>
     match points.get? iMax, points.get? iMin with
     | some pMax, some pMin => Py.val (wedge ++ [pMax, pMin])
     | _, _ => Py.exn
   | _, _ => Py.exn) >>= fun samples =>
  let cutoff :=
    if samples.length > 2 then ops.polygonOf samples
    else if samples.length = 2 then ops.lineOf samples
    else if samples.length = 1 then ops.pointOf (samples.headD (Pt.mk 0 0))
    else ops.emptyPolygon
  Py.val (ops.union (ops.buffer cutoff 0) a)

/-- get_occluded_areas (lines 16-69): per object, the occluded "shadow" region
within the field of view, keyed by the object (dict in insertion order). -/
def get_occluded_areas (mops : MathOps) (ops : GeoOps G) (others : List (Entity G))
    (fov : G) (visibility : Option Q) : Py (List (Entity G × G)) :=
  let vis := visibility.getD DEFAULT_VISIBILITY
  let rec go : List (Entity G) → Py (List (Entity G × G))
    | [] => Py.val []
    | x :: rest =>
      match x.hasGeometry with
      | none => Py.exn
      | some g =>
        let a := ops.intersection (ops.normalize2d g) fov
        cutoffFor mops ops fov vis a >>= fun cutoff =>
        go rest >>= fun cs =>
        Py.val ((x, cutoff) :: cs)
  go others

/-- The per-candidate shadow intersections of get_occlusions (lines 94-99):
the cutoffs of all other objects whose overlap with the candidate footprint
has positive area, in cutoff (insertion) order. -/
def occlusionInts (ops : GeoOps G) (geom : G) (me : Entity G)
    (cutoffs : List (Entity G × G)) : List (Entity G × G) :=
  cutoffs.filterMap (fun ac =>
    if ac.1.name ≠ me.name then
      let inter := ops.intersection geom ac.2
      if ops.area inter > 0 then some (ac.1, inter) else none
    else none)

/-- union = ints[0][1] followed by union with every further intersection. -/
def occlusionUnion (ops : GeoOps G) : List (Entity G × G) → Option G
  | [] => none
  | (_, g0) :: rest => some (rest.foldl (fun u ac => ops.union u ac.2) g0)

/-- An occlusion as returned by get_occlusions: the occluding objects, the
occluded object, and the occlusion percentage. -/
abbrev OccRec (G : Type) := List (Entity G) × Entity G × Q

/-- get_occlusions (lines 72-107): per candidate with positive footprint area
inside the FOV, the occluders and min(int(ratio * 100) / 100, 1.0) where
ratio is the shadow-overlap union area over the footprint area within the
FOV. -/
def get_occlusions (ops : GeoOps G) (others : List (Entity G))
    (cutoffs : List (Entity G × G)) (fov : G) : Py (List (OccRec G)) :=
  match others with
  | [] => Py.val []
  | x :: rest =>
    match x.hasGeometry with
    | none => Py.exn
    | some g =>
      let geom := ops.normalize2d g
      let fov_intersection := ops.area (ops.intersection geom fov)
      get_occlusions ops rest cutoffs fov >>= fun rs =>
      if fov_intersection > 0 then
        let ints := occlusionInts ops geom x cutoffs
        match occlusionUnion ops ints with
        | some u =>
          let percentage := min ((pyInt ((ops.area u / fov_intersection) * 100) : Q) / 100) 1
          Py.val ((ints.map (·.1), x, percentage) :: rs)
        | none => Py.val rs
      else Py.val rs

/-- The yaw guard of Observer.augment_occlusion (lines 137-138): the observer
has a yaw, or drives a vehicle that has geometry and a yaw. -/
def observerYawOk (w : World G) (self : Entity G) : Py Bool :=
  match self.has_yaw with
  | some _ => Py.val true
  | none =>
    match self.drives with
    | [] => Py.val false
    | d :: _ =>
      match findEnt w d with
      | some e => Py.val (e.has_yaw.isSome && has_geometry e)
      | none => Py.exn

/-- Lines 140-143: the yaw used, possibly read through the driving relation. -/
def observerYaw (w : World G) (self : Entity G) : Py Q :=
  match self.has_yaw with
  | some y => Py.val y
  | none =>
    match self.drives with
    | d :: _ =>
      (match findEnt w d with
       | some e =>
         match e.has_yaw with
         | some y => Py.val y
         | none => Py.exn
       | none => Py.exn)
    | [] => Py.exn

/-- Lines 145-151: the FOV center, offset forward by a quarter of the driven
vehicle length when the observer drives. -/
def observerHead (mops : MathOps) (ops : GeoOps G) (w : World G) (self : Entity G)
    (self_geom : G) (yaw : Q) : Py Pt :=
  match self.drives with
  | d :: _ =>
    (match findEnt w d with
     | some e =>
       get_left_back_point ops e >>= fun lb =>
       get_left_front_point ops e >>= fun lf =>
       let length := mops.dist lb lf / 4
       Py.val (Pt.mk ((ops.centroid self_geom).x + mops.cos (mops.radians yaw) * length)
                     ((ops.centroid self_geom).y + mops.sin (mops.radians yaw) * length))
     | none => Py.exn)
  | [] => Py.val (Pt.mk (ops.centroid self_geom).x (ops.centroid self_geom).y)

/-- Line 152: self.has_visibility_range or _DEFAULT_VISIBILITY, under Python
truthiness. -/
def observerVisibility (self : Entity G) : Q :=
  match self.has_visibility_range with
  | some v => if v ≠ 0 then v else DEFAULT_VISIBILITY
  | none => DEFAULT_VISIBILITY

/-- Observer.augment_occlusion (lines 132-169): builds the field of view,
collects occluding and occludable objects, computes occlusions, and keeps a
record exactly for those whose occlusion rate exceeds 0.2. -/
def augment_occlusion (mops : MathOps) (ops : GeoOps G) (w : World G) (self : Entity G) :
    Py (List (OccRec G)) :=
  if has_geometry self then
    observerYawOk w self >>= fun yawOk =>
    if yawOk ∧ self.is_occluded_for_in_occlusion = [] then
      observerYaw w self >>= fun yaw =>
      match get_geometry self with
      | none => Py.exn
      | some self_geom =>
        observerHead mops ops w self self_geom yaw >>= fun head =>
        let visibility := observerVisibility self
        let fov := ops.buffer (ops.pointOf head) visibility
        let occluding_others := w.filter (fun x => is_in_fov ops self self_geom x fov false)
        let occluded_others := w.filter (fun x => is_in_fov ops self self_geom x fov true)
        get_occluded_areas mops ops occluding_others fov (some visibility) >>= fun occluded_areas =>
        get_occlusions ops occluded_others occluded_areas fov >>= fun occlusions =>
        Py.val (occlusions.filter (fun occ => occ.2.2 > 0.2))
    else Py.val []
  else Py.val []

end Observer

section SceneModel

/-- A property value of an owlready2 individual: an individual reference (by
store id), a string, or a number. -/
inductive Val where
  | ref : ℕ → Val
  | str : String → Val
  | num : Q → Val
deriving DecidableEq

/-- An individual of a Scene, with its store id, IRI name, direct classes,
the names of the properties that carry values (vars/get_properties), and the
keyed attribute store backing getattr/setattr. -/
structure Ind where
  id : ℕ
  name : String
  is_a : List String
  propNames : List String
  props : String → List Val

/-- A Scene: a timestamped snapshot of individuals. -/
structure SceneM where
  timestamp : Q
  inds : List Ind

/-- A Python number argument as the source inspects it: its rational value
and, when its str() contains a dot, the number of printed decimal digits. -/
structure PyDecimal where
  val : Q
  decimals : Option ℕ
deriving DecidableEq

/-- setattr: replace the value list of one property in the keyed store. -/
def setProp (props : String → List Val) (p : String) (vs : List Val) : String → List Val :=
  fun q => if q = p then vs else props q

/-- Translate an individual-valued property value through the old-to-new
mapping; values not in the mapping are kept as they are (line 316-317). -/
def trVal (m : List (ℕ × ℕ)) : Val → Val
  | .ref i =>
    match m.find? (fun p => p.1 == i) with
    | some p => .ref p.2
    | none => .ref i
  | v => v

/-- new_ind.is_a after creation and the class-copy loop (lines 281-306): it
starts from the creation class (is_a head) and appends every direct class not
already present. -/
def copyClasses (l : List String) : List String :=
  match l with
  | [] => []
  | c :: _ => l.foldl (fun acc cls => if cls ∈ acc then acc else acc ++ [cls]) [c]

/-- The fresh individual created for a source individual (lines 279-284):
same IRI name, the copied direct classes, and no attribute values yet. -/
def mkNewInd (k : ℕ) (ind : Ind) : Ind :=
  { id := k, name := ind.name, is_a := copyClasses ind.is_a,
    propNames := [], props := fun _ => [] }

/-- Lines 276-306 of Scene.copy: create one new individual per source
individual (unless one with that IRI already exists), with fresh store ids and
the old-to-new mapping in source order. -/
def copyInds : List Ind → List String → ℕ → List (ℕ × ℕ) × List Ind
  | [], _, _ => ([], [])
  | ind :: rest, seen, k =>
    if ind.name ∈ seen then copyInds rest seen k
    else
      let mrest := copyInds rest (seen ++ [ind.name]) (k + 1)
      ((ind.id, k) :: mrest.1, mkNewInd k ind :: mrest.2)

/-- Lines 315-321 of Scene.copy: write one translated value onto the new
individual; functional properties are overwritten, list-valued properties are
appended to unless already present. -/
def addPropVal (functional : String → Bool) (p : String) (v : Val)
    (props : String → List Val) : String → List Val :=
  if functional p then setProp props p [v]
  else if v ∈ props p then props
  else setProp props p (props p ++ [v])

/-- Lines 309-321 of Scene.copy for one individual: copy every to_keep
property of the old individual, translating values through the mapping. -/
def copyProps (functional : String → Bool) (to_keep : List String) (m : List (ℕ × ℕ))
    (oldInd : Ind) (props : String → List Val) : String → List Val :=
  oldInd.propNames.foldl (fun acc q =>
    if q ∈ to_keep then
      (oldInd.props q).foldl (fun acc2 v => addPropVal functional q (trVal m v) acc2) acc
    else acc) props

/-- The property-copy pass over the whole new scene, in mapping order. -/
def applyProps (functional : String → Bool) (to_keep : List String) (src : List Ind)
    (m : List (ℕ × ℕ)) (news : List Ind) : List Ind :=
  m.foldl (fun ns pair =>
    match src.find? (fun ind => ind.id == pair.1) with
    | some oldInd =>
      ns.map (fun ni =>
        if ni.id = pair.2 then { ni with props := copyProps functional to_keep m oldInd ni.props }
        else ni)
    | none => ns) news

/-- Scene.copy (lines 250-323): the new timestamp is timestamp + delta_t,
rounded (half-even) to delta_t's printed decimal digits when str(delta_t)
contains a dot; individuals are re-created with their names and direct
classes, and the to_keep properties are copied with mapping translation. -/
def sceneCopy (functional : String → Bool) (delta_t : PyDecimal) (to_keep : List String)
    (src : SceneM) : List (ℕ × ℕ) × SceneM :=
  let t0 := src.timestamp + delta_t.val
  let timestamp := match delta_t.decimals with
    | none => t0
    | some d => pyRound t0 d
  let created := copyInds src.inds [] 0
  let m := created.1
  ⟨m, { timestamp := timestamp, inds := applyProps functional to_keep src.inds m created.2 }⟩

/-- A per-individual update rule, acting on the old individual, the mapping
and the new scene individuals (extras/owl.py simulate and its overrides). -/
abbrev Rule := Ind → List (ℕ × ℕ) → List Ind → List Ind

/-- The property-copy loop of the generic owl simulate (owl.py lines 17-30):
every non-underscore property of the old thing whose value on the new
individual is still empty is copied over, with mapping translation. -/
def genCopy (functional : String → Bool) (m : List (ℕ × ℕ)) (thing : Ind)
    (props : String → List Val) : String → List Val :=
  thing.propNames.foldl (fun acc q =>
    if acc q = [] ∧ ¬ q.startsWith "_" then
      (thing.props q).foldl (fun a2 v =>
        if functional q then setProp a2 q [trVal m v]
        else setProp a2 q (a2 q ++ [trVal m v])) acc
    else acc) props

/-- The generic no-op-beyond-copy update rule (owl.py Thing.simulate). -/
def generic_simulate (functional : String → Bool) : Rule := fun thing m news =>
  match m.find? (fun p => p.1 == thing.id) with
  | none => news
  | some pair =>
    news.map (fun ni =>
      if ni.id = pair.2 then { ni with props := genCopy functional m thing ni.props } else ni)

/-- Scene.simulate (lines 325-358): copy with the preserve set (geometry link,
raw footprint WKT, height, comment, plus caller names), order the old
individuals by the sort key (the priority key, or hash), and run each
individual's update rule. -/
def sceneSimulate (functional : String → Bool) (delta_t : PyDecimal) (to_keep : List String)
    (sortKey : Ind → ℤ) (ruleOf : Ind → Rule) (src : SceneM) : SceneM :=
  let ke := ["hasGeometry", "asWKT", "has_height", "comment"] ++ to_keep
  let copied := sceneCopy functional delta_t ke src
  let m := copied.1
  let new := copied.2
  let olds := m.filterMap (fun pair => src.inds.find? (fun ind => ind.id == pair.1))
  let ordered := pySorted (fun a b => decide (sortKey a ≤ sortKey b)) olds
  { timestamp := new.timestamp,
    inds := ordered.foldl (fun ns ind => ruleOf ind ind m ns) new.inds }

/-- The per-scene loop body of Scenario.simulate (lines 301-309): step from
the latest scene, append, accumulate the accident flag, stop early on an
accident when requested. The loop variable is used only for logging. -/
def scenarioLoop (step : SceneM → SceneM) (hasAcc : SceneM → Bool) (stop : Bool) :
    ℕ → List SceneM → Bool → List SceneM × Bool
  | 0, acc, happened => (acc, happened)
  | n + 1, acc, happened =>
    match acc.getLast? with
    | none => (acc, happened)
    | some last =>
      let ns := step last
      let acc2 := acc ++ [ns]
      let h2 := happened || hasAcc ns
      if stop && h2 then (acc2, h2) else scenarioLoop step hasAcc stop n acc2 h2

/-- Scenario.simulate (lines 277-322): with at least one scene and positive
duration, run int(duration / delta_t) steps from the last scene; with zero
scenes, log a warning and do nothing. Returns the final scene list, the
accident flag (the return value of the source), and whether the
empty-scenario warning was reported. -/
def scenarioSimulate (step : SceneM → SceneM) (hasAcc : SceneM → Bool)
    (scenes : List SceneM) (duration : Q) (delta_t : PyDecimal)
    (stop_at_accidents : Bool) : List SceneM × Bool × Bool :=
  if scenes.length > 0 ∧ duration > 0 then
    let timestamps :=
      match scenes.getLast? with
      | some last =>
        linspaceQ (last.timestamp + delta_t.val) (last.timestamp + duration)
          (pyInt (duration / delta_t.val)).toNat
      | none => []
    let r := scenarioLoop step hasAcc stop_at_accidents timestamps.length scenes false
    (r.1, r.2, false)
  else if scenes.length = 0 then (scenes, false, true)
  else (scenes, false, false)

end SceneModel

section SpecSide

variable {G : Type}

/-- Symmetry invariant of the intersects_path_with caches: whatever is stored
for a pair is stored, swapped, for the reversed pair. -/
def CacheSymm (c : IPWCache) : Prop :=
  ∀ a b v, cacheFind c (a, b) = some v → cacheFind c (b, a) = some (swapV v)

/-- The accident relation as the claim words it: both heights positive, both
geometries present and intersecting, neither entity drives the other. -/
def accidentClaim (ops : GeoOps G) (e1 e2 : Entity G) : Prop :=
  (∃ h1, e1.has_height = some h1 ∧ 0 < h1) ∧ (∃ h2, e2.has_height = some h2 ∧ 0 < h2) ∧
  (∃ g1 g2, get_geometry e1 = some g1 ∧ get_geometry e2 = some g2 ∧ ops.intersects g2 g1 = true) ∧
  e2.name ∉ e1.drives ∧ e1.name ∉ e2.drives

/-- The accident relation as amended: heights present and nonzero (the code
tests truthiness, so a negative height also counts), the rest as claimed. -/
def accidentAmended (ops : GeoOps G) (e1 e2 : Entity G) : Prop :=
  (∃ h1, e1.has_height = some h1 ∧ h1 ≠ 0) ∧ (∃ h2, e2.has_height = some h2 ∧ h2 ≠ 0) ∧
  (∃ g1 g2, get_geometry e1 = some g1 ∧ get_geometry e2 = some g2 ∧ ops.intersects g2 g1 = true) ∧
  e2.name ∉ e1.drives ∧ e1.name ∉ e2.drives

/-- The occlusion percentage as the claim words it: the ratio floored to the
nearest 0.01 and clamped into [0, 1]. -/
def specFloorClamp (r : Q) : Q :=
  max 0 (min 1 ((⌊r * 100⌋ : Q) / 100))

/-- The canonical old-to-new store-id mapping produced by Scene.copy on a
scene with distinct individual names: source individuals in order, mapped to
fresh ids 0, 1, 2, ... -/
def canonMap (src : SceneM) : List (ℕ × ℕ) :=
  src.inds.enum.map (fun q => (q.2.id, q.1))

/-- The effect of one mapping pair of the property-copy pass on one new
individual (the elementwise view of applyProps). -/
def applyStep (f : String → Bool) (tk : List String) (src : List Ind)
    (m : List (ℕ × ℕ)) (ni : Ind) (pair : ℕ × ℕ) : Ind :=
  match src.find? (fun ind => ind.id == pair.1) with
  | some old =>
    if ni.id = pair.2 then { ni with props := copyProps f tk m old ni.props } else ni
  | none => ni

/-- The effect of one generic update rule on one new individual (the
elementwise view of generic_simulate). -/
def genStep (f : String → Bool) (m : List (ℕ × ℕ)) (ni : Ind) (thing : Ind) : Ind :=
  match m.find? (fun p => p.1 == thing.id) with
  | none => ni
  | some pair =>
    if ni.id = pair.2 then { ni with props := genCopy f m thing ni.props } else ni

end SpecSide

section ConcreteModel

/-- A small executable geometry for concrete evaluations: a representative
position (its centroid), a natural-number area mass, and a polygon flag. -/
structure CG where
  pos : Pt
  mass : ℕ
  poly : Bool
deriving DecidableEq, Repr

/-- Concrete math primitives (arbitrary rational-valued stand-ins for the
external float functions; no theorem depends on their values). -/
def cmops : MathOps where
  cos := fun _ => 1
  sin := fun _ => 0
  atan2 := fun a b => a - b
  radians := fun x => x
  degrees := fun x => x
  norm2 := fun a b => a + b
  dist := fun p q => |p.x - q.x| + |p.y - q.y|

/-- Concrete geometry primitives on CG: two geometries intersect exactly when
they share their position, and then the intersection carries the smaller
mass, so intersection areas are nonnegative and vanish on non-intersecting
pairs. -/
def cops : GeoOps CG where
  union := fun g h => ⟨g.pos, g.mass + h.mass, g.poly || h.poly⟩
  intersects := fun g h => decide (g.pos = h.pos)
  intersection := fun g h => ⟨g.pos, if g.pos = h.pos then min g.mass h.mass else 0, g.poly && h.poly⟩
  area := fun g => (g.mass : Q)
  centroid := fun g => g.pos
  distance := fun g h => |g.pos.x - h.pos.x| + |g.pos.y - h.pos.y|
  isPolygon := fun g => g.poly
  rotate := fun g _ _ => g
  translate := fun g dx dy => ⟨⟨g.pos.x + dx, g.pos.y + dy⟩, g.mass, g.poly⟩
  buffer := fun g _ => ⟨g.pos, g.mass + 10, g.poly⟩
  pointOf := fun p => ⟨p, 0, false⟩
  polygonOf := fun l => ⟨l.headD (Pt.mk 0 0), l.length, true⟩
  lineOf := fun l => ⟨l.headD (Pt.mk 0 0), 0, false⟩
  emptyPolygon := ⟨Pt.mk 0 0, 0, true⟩
  within := fun _ _ => false
  equalsG := fun g h => decide (g = h)
  asPoint := fun g => if g.poly then none else some g.pos
  exteriorCoords := fun g => if g.poly then some [g.pos] else none
  normalize2d := fun g => g
  leftBack := fun g => g.pos
  leftFront := fun g => ⟨g.pos.x + 1, g.pos.y⟩

/-- A base entity with every attribute absent. -/
def baseEnt : Entity CG where
  name := "e"
  is_a := ["physics.Spatial_Object"]
  hasGeometry := none
  has_yaw := none
  has_yaw_rate := none
  has_speed := none
  has_velocity_x := none
  has_velocity_y := none
  has_velocity_z := none
  has_height := none
  has_length := none
  has_visibility_range := none
  drives := []
  is_occluded_for_in_occlusion := []
  is_dynamical := true

/-- A polygon-footprint entity whose yaw attribute is absent (the failing
input of the prediction crash). -/
def polyNoYaw : Entity CG :=
  { baseEnt with name := "p", hasGeometry := some ⟨Pt.mk 0 0, 4, true⟩ }

/-- A non-parking vehicle with yaw 0 and stored speed 1 m/s. -/
def slowVehicle : Entity CG :=
  { baseEnt with name := "v", is_a := ["l4_de.Vehicle"], has_yaw := some 0, has_speed := some 1 }

/-- Point-footprint entity A at (0, 0), for the path-intersection symmetry
evaluation (non-dynamical, so the footprint sequences need no prediction). -/
def entA : Entity CG :=
  { baseEnt with name := "A", hasGeometry := some ⟨Pt.mk 0 0, 1, false⟩, is_dynamical := false }

/-- Point-footprint entity B at (3, 0). -/
def entB : Entity CG :=
  { baseEnt with name := "B", hasGeometry := some ⟨Pt.mk 3 0, 1, false⟩, is_dynamical := false }

/-- A driver: it drives the vehicle "V", has geometry and positive speed. -/
def drvD : Entity CG :=
  { baseEnt with name := "D", hasGeometry := some ⟨Pt.mk 0 0, 1, false⟩,
                 has_speed := some 1, drives := ["V"] }

/-- The driven vehicle "V", with geometry and positive speed. -/
def vehV : Entity CG :=
  { baseEnt with name := "V", hasGeometry := some ⟨Pt.mk 5 0, 4, true⟩, has_speed := some 1 }

/-- Two independent moving entities for the amended intersecting-path
predicate. -/
def freeF : Entity CG :=
  { baseEnt with name := "F", hasGeometry := some ⟨Pt.mk 0 0, 1, false⟩, has_speed := some 2 }

def freeH : Entity CG :=
  { baseEnt with name := "H", hasGeometry := some ⟨Pt.mk 7 0, 1, false⟩, has_speed := some 3 }

/-- A cache priming the (D, V) pair with intersection times 1 and 1. -/
def cacheDV : IPWCache := [(("D", "V"), (some 1, some 1, some (Pt.mk 2 0)))]

/-- A cache priming the (F, H) pair with intersection times 1 and 1. -/
def cacheFH : IPWCache := [(("F", "H"), (some 1, some 1, some (Pt.mk 3 0)))]

/-- Two overlapping entities of negative height (heights are truthy, so the
code detects an accident although the heights are not positive). -/
def negHeight1 : Entity CG :=
  { baseEnt with name := "N1", hasGeometry := some ⟨Pt.mk 0 0, 1, true⟩, has_height := some (-1) }

def negHeight2 : Entity CG :=
  { baseEnt with name := "N2", hasGeometry := some ⟨Pt.mk 0 0, 1, true⟩, has_height := some (-1) }

/-- A zero-height entity overlapping negHeight2. -/
def zeroHeight : Entity CG :=
  { baseEnt with name := "Z", hasGeometry := some ⟨Pt.mk 0 0, 1, true⟩, has_height := some 0 }

/-- Entities for the directional predicates: sOther has a yaw, the two are
distinct, close and non-coincident. -/
def dirSelf : Entity CG :=
  { baseEnt with name := "S", hasGeometry := some ⟨Pt.mk 2 0, 1, true⟩ }

def dirOther : Entity CG :=
  { baseEnt with name := "O", hasGeometry := some ⟨Pt.mk 0 0, 1, true⟩, has_yaw := some 0 }

/-- A concrete observer with yaw and geometry, for the occlusion run. -/
def obsO : Entity CG :=
  { baseEnt with name := "Obs", hasGeometry := some ⟨Pt.mk 0 0, 1, true⟩, has_yaw := some 0 }

/-- An occluding entity of positive height inside the observer field of
view. -/
def blockerB : Entity CG :=
  { baseEnt with name := "Blk", hasGeometry := some ⟨Pt.mk 0 0, 3, true⟩, has_height := some 1 }

/-- An occludable entity of positive height inside the observer field of
view. -/
def targetT : Entity CG :=
  { baseEnt with name := "Tgt", hasGeometry := some ⟨Pt.mk 0 0, 2, true⟩, has_height := some 1 }

/-- The world of the concrete occlusion run. -/
def occlWorld : World CG := [obsO, blockerB, targetT]

/-- A concrete individual for exercising the scene copy: a vehicle whose
geometry property refers to its own store id. -/
def w7ind : Ind :=
  { id := 5, name := "car1", is_a := ["l4_core.Vehicle"],
    propNames := ["hasGeometry"],
    props := fun q => if q = "hasGeometry" then [Val.ref 5, Val.str "POLY"] else [] }

/-- A one-individual scene at timestamp 3/2. -/
def w7scene : SceneM := { timestamp := 3/2, inds := [w7ind] }

end ConcreteModel

/-- C8: Scenario.simulate on a scenario containing zero scenes is a reported
no-op that does not raise: it appends no scene, leaves the scene list
unchanged (empty), returns False, and logs the warning. -/
theorem C8_empty_scenario_simulate (step : SceneM → SceneM) (hasAcc : SceneM → Bool)
    (duration : Q) (delta_t : PyDecimal) (stop : Bool) :
    scenarioSimulate step hasAcc [] duration delta_t stop = ([], false, true) := by
  simp [scenarioSimulate]

/-- C3: the trajectory predictor raises for a polygon-footprint entity whose
yaw attribute is absent: although lines 246-248 default the missing yaw and
speed to 0, line 271 evaluates self.has_yaw + 180, a TypeError on None. The
spec (§4.1, §7) requires absent kinematic attributes to default to 0 without
crashing, so this is a code bug, evaluated here at the failing input. -/
theorem C3_prediction_crashes_on_polygon_without_yaw :
    polyNoYaw.hasGeometry = some ⟨Pt.mk 0 0, 4, true⟩ ∧
    cops.isPolygon ⟨Pt.mk 0 0, 4, true⟩ = true ∧
    polyNoYaw.has_yaw = none ∧
    prediction cmops cops [] polyNoYaw 1 1 = Py.exn := by
  refine ⟨rfl, rfl, rfl, ?_⟩
  norm_num [prediction, predLoop, predStep, predictionYawSpeed, arangeQ, get_geometry,
    get_centroid, polyNoYaw, baseEnt, cops, cmops, truthyOpt, Py.bind, bind]

/-- C9 counterexample: the claim says the creeping-speed floor is substituted
only when the stored speed is exactly zero, but for a stored speed of 1 m/s
(nonzero) the speed used is max(1.5, 1) = 1.5, not the stored speed. -/
theorem C9_counterexample_speed_floor :
    slowVehicle.has_speed = some 1 ∧ (1 : Q) ≠ 0 ∧
    (predictionYawSpeed slowVehicle).2 = 3/2 ∧ (3/2 : Q) ≠ 1 := by
  refine ⟨rfl, by norm_num, ?_, by norm_num⟩
  norm_num [predictionYawSpeed, slowVehicle, baseEnt, RELEVANT_LOWEST_SPEED]
  decide

/-- C9 amended: for an entity with yaw and stored speed present and not a
parking vehicle, the translation speed used by the predictor equals the
stored speed exactly when that speed is at least the 1.5 m/s floor
(10 times _RELEVANT_LOWEST_SPEED); any smaller stored speed — in particular
exactly zero — is replaced by the positive creeping floor. -/
theorem C9_prediction_speed_floor {G : Type} (e : Entity G) (y s : Q)
    (hy : e.has_yaw = some y) (hs : e.has_speed = some s)
    (hp : "l4_de.Parking_Vehicle" ∉ e.is_a) :
    ((predictionYawSpeed e).2 = s ↔ RELEVANT_LOWEST_SPEED * 10 ≤ s) ∧
    (s < RELEVANT_LOWEST_SPEED * 10 → (predictionYawSpeed e).2 = RELEVANT_LOWEST_SPEED * 10) ∧
    (s = 0 → (predictionYawSpeed e).2 = RELEVANT_LOWEST_SPEED * 10) ∧
    0 < (predictionYawSpeed e).2 := by
  have hval : (predictionYawSpeed e).2 = max (RELEVANT_LOWEST_SPEED * 10) s := by
    simp [predictionYawSpeed, hy, hs, hp]
  rw [hval]
  refine ⟨max_eq_right_iff, fun hlt => max_eq_left hlt.le, fun hz => ?_, ?_⟩
  · rw [hz]
    exact max_eq_left (by norm_num [RELEVANT_LOWEST_SPEED])
  · exact lt_max_of_lt_left (by norm_num [RELEVANT_LOWEST_SPEED])

/-- C9 witness: the amended statement evaluated for the concrete non-parking
vehicle with yaw 0 and stored speed 1 m/s. -/
theorem C9_witness :
    slowVehicle.has_yaw = some 0 ∧ slowVehicle.has_speed = some 1 ∧
    (((predictionYawSpeed slowVehicle).2 = 1 ↔ RELEVANT_LOWEST_SPEED * 10 ≤ 1) ∧
     ((1 : Q) < RELEVANT_LOWEST_SPEED * 10 →
        (predictionYawSpeed slowVehicle).2 = RELEVANT_LOWEST_SPEED * 10) ∧
     ((1 : Q) = 0 → (predictionYawSpeed slowVehicle).2 = RELEVANT_LOWEST_SPEED * 10) ∧
     0 < (predictionYawSpeed slowVehicle).2) :=
  ⟨rfl, rfl, C9_prediction_speed_floor slowVehicle 0 1 rfl rfl (by decide)⟩

/-- Evaluation of the directional guard at the concrete pair: it passes and
yields the two centroids. -/
theorem dirGuardEval : dirGuard cmops cops dirSelf dirOther = some (Pt.mk 2 0, Pt.mk 0 0) := by
  have h1 : (dirSelf.name = dirOther.name) = False := by simp [dirSelf, dirOther, baseEnt]
  norm_num [dirGuard, has_geometry, get_geometry, dirSelf, dirOther, baseEnt, cops, cmops,
    isclose, max_def, abs, SPATIAL_PREDICATE_THRESHOLD, h1]
  exact fun h => absurd h (by decide)

/-- C6: the directional predicates cannot be total because in_front_of calls
utils.in_front_of, a function that the extras.utils module does not define:
whenever its guard passes (distinct entities with geometry, other with yaw,
within 50 m, centroids not coinciding) the call raises AttributeError. At the
same concrete input the sibling predicates behind / left_of / right_of
evaluate normally. -/
theorem C6_in_front_of_raises :
    dirSelf.name ≠ dirOther.name ∧ has_geometry dirSelf = true ∧
    has_geometry dirOther = true ∧ dirOther.has_yaw = some 0 ∧
    (dirGuard cmops cops dirSelf dirOther).isSome = true ∧
    in_front_of cmops cops dirSelf dirOther = Py.exn ∧
    behind cmops cops dirSelf dirOther = some false ∧
    left_of cmops cops dirSelf dirOther = some false ∧
    right_of cmops cops dirSelf dirOther = some true := by
  have hang : dirAngle cmops 0 (Pt.mk 2 0) (Pt.mk 0 0) = 359 := by
    norm_num [dirAngle, qmod, cmops]
  have hy : dirOther.has_yaw = some 0 := rfl
  refine ⟨by decide, rfl, rfl, rfl, by rw [dirGuardEval]; rfl, ?_, ?_, ?_, ?_⟩
  · simp [in_front_of, dirGuardEval]
  · norm_num [behind, dirGuardEval, hy, hang]
  · norm_num [left_of, dirGuardEval, hy, hang]
  · norm_num [right_of, dirGuardEval, hy, hang]

/-- Reading a prepended cache binding. -/
theorem cacheFind_cons (k : String × String) (v : IPWVal) (c : IPWCache) (q : String × String) :
    cacheFind ((k, v) :: c) q = if q = k then some v else cacheFind c q := by
  by_cases h : q = k
  · subst h
    simp [cacheFind, List.find?]
  · have hb : (k == q) = false := by
      simp only [beq_eq_false_iff_ne, ne_eq]
      exact fun hh => h hh.symm
    simp [cacheFind, List.find?, hb, h]

/-- The empty cache is symmetric. -/
theorem cacheSymm_nil : CacheSymm [] := by
  intro a b v h
  simp [cacheFind] at h

/-- Swapping the cached triple twice is the identity. -/
theorem swapV_swapV (v : IPWVal) : swapV (swapV v) = v := rfl

/-- Writing the paired entries of intersects_path_with preserves cache
symmetry. -/
theorem cacheSymm_write {c : IPWCache} (hs : CacheSymm c) {a b : String} (hab : a ≠ b)
    (v : IPWVal) :
    CacheSymm (cacheSet (cacheSet c (a, b) v) (b, a) (swapV v)) := by
  intro x y u hfind
  simp only [cacheSet, cacheFind_cons] at hfind ⊢
  by_cases h1 : (x, y) = (b, a)
  · rw [if_pos h1] at hfind
    obtain ⟨hx, hy⟩ := Prod.mk.injEq .. ▸ h1
    subst hx; subst hy
    rw [if_neg (by simp [hab]), if_pos rfl]
    cases hfind
    rfl
  · rw [if_neg h1] at hfind
    by_cases h2 : (x, y) = (a, b)
    · rw [if_pos h2] at hfind
      obtain ⟨hx, hy⟩ := Prod.mk.injEq .. ▸ h2
      subst hx; subst hy
      rw [if_pos rfl]
      cases hfind
      rfl
    · rw [if_neg h2] at hfind
      have g1 : (y, x) ≠ (b, a) := by
        intro hc
        obtain ⟨hy, hx⟩ := Prod.mk.injEq .. ▸ hc
        exact h2 (by rw [hx, hy])
      have g2 : (y, x) ≠ (a, b) := by
        intro hc
        obtain ⟨hy, hx⟩ := Prod.mk.injEq .. ▸ hc
        exact h1 (by rw [hx, hy])
      rw [if_neg g1, if_neg g2]
      exact hs x y u hfind

/-- C1: path-intersection results are symmetric: starting from a symmetric
cache (in particular the empty per-object caches), if intersects_path_with(A,
B) returns (t1, t2, p) then intersects_path_with(B, A) on the resulting cache
state returns the swapped triple (t2, t1, p) — answered from the cached
swapped tuple that the first call stored — and the caches stay symmetric. -/
theorem C1_path_intersection_symmetry {G : Type} (mops : MathOps) (ops : GeoOps G)
    (w : World G) (A B : Entity G) (dt hor : Q) (c : IPWCache) (hsymm : CacheSymm c)
    (r : IPWVal) (c1 : IPWCache)
    (hcall : intersects_path_with mops ops w A B dt hor c = Py.val (r, c1)) :
    (∃ c2, intersects_path_with mops ops w B A dt hor c1 = Py.val (swapV r, c2)) ∧
    CacheSymm c1 := by
  cases hfind : cacheFind c (A.name, B.name) with
  | some v =>
    simp only [intersects_path_with, hfind] at hcall
    injection hcall with hpair
    obtain ⟨hr, hc1⟩ := Prod.mk.injEq .. ▸ hpair
    subst hr; subst hc1
    exact ⟨⟨c, by simp only [intersects_path_with, hsymm A.name B.name v hfind]⟩, hsymm⟩
  | none =>
    have hwrite : ∀ v0 : IPWVal, ∀ _ : A.name ≠ B.name,
        (∃ c2, intersects_path_with mops ops w B A dt hor
            (cacheSet (cacheSet c (A.name, B.name) v0) (B.name, A.name) (swapV v0)) =
          Py.val (swapV v0, c2)) ∧
        CacheSymm (cacheSet (cacheSet c (A.name, B.name) v0) (B.name, A.name) (swapV v0)) := by
      intro v0 hne
      have hbfind : cacheFind (cacheSet (cacheSet c (A.name, B.name) v0)
          (B.name, A.name) (swapV v0)) (B.name, A.name) = some (swapV v0) := by
        simp [cacheSet, cacheFind_cons]
      exact ⟨⟨cacheSet (cacheSet c (A.name, B.name) v0) (B.name, A.name) (swapV v0),
        by simp only [intersects_path_with, hbfind]⟩, cacheSymm_write hsymm hne v0⟩
    simp only [intersects_path_with, hfind] at hcall
    split_ifs at hcall with hguard hp
    · cases hc2 : ipwCompute mops ops w A B dt hor with
      | exn =>
        rw [hc2] at hcall
        simp only [Bind.bind, Py.bind_exn] at hcall
        cases hcall
      | val v0 =>
        rw [hc2] at hcall
        simp only [Bind.bind, Py.bind_val] at hcall
        injection hcall with hpair
        obtain ⟨hr, hc1⟩ := Prod.mk.injEq .. ▸ hpair
        subst hr; subst hc1
        exact hwrite v0 hguard.1
    · simp only [Bind.bind, Py.bind_val] at hcall
      injection hcall with hpair
      obtain ⟨hr, hc1⟩ := Prod.mk.injEq .. ▸ hpair
      subst hr; subst hc1
      exact hwrite (none, none, none) hguard.1
    · injection hcall with hpair
      obtain ⟨hr, hc1⟩ := Prod.mk.injEq .. ▸ hpair
      subst hr; subst hc1
      cases hBA : cacheFind c (B.name, A.name) with
      | some u =>
        have hcontra := hsymm B.name A.name u hBA
        rw [hfind] at hcontra
        cases hcontra
      | none =>
        have hguardBA : ¬(B.name ≠ A.name ∧ has_geometry B = true ∧ has_geometry A = true) := by
          intro ⟨hn, hgb, hga⟩
          exact hguard ⟨hn.symm, hga, hgb⟩
        refine ⟨⟨c, ?_⟩, hsymm⟩
        simp only [intersects_path_with, hBA]
        rw [if_neg hguardBA]
        rfl

/-- C1 witness: the symmetry theorem applied at the concrete pair A, B with
an empty cache; the first call computes (1, 1, (0,0)) and caches both
orientations. -/
theorem C1_witness :
    CacheSymm ([] : IPWCache) ∧
    ((∃ c2, intersects_path_with cmops cops [entA, entB] entB entA 1 2
        [(("B", "A"), (some 1, some 1, some (Pt.mk 0 0))),
         (("A", "B"), (some 1, some 1, some (Pt.mk 0 0)))] =
        Py.val (swapV (some 1, some 1, some (Pt.mk 0 0)), c2)) ∧
      CacheSymm [(("B", "A"), (some 1, some 1, some (Pt.mk 0 0))),
                 (("A", "B"), (some 1, some 1, some (Pt.mk 0 0)))]) :=
  ⟨cacheSymm_nil, C1_path_intersection_symmetry cmops cops [entA, entB] entA entB 1 2 []
    cacheSymm_nil (some 1, some 1, some (Pt.mk 0 0)) _ (by
      norm_num [intersects_path_with, ipwCompute, predFor, unionFold, unionFoldAux, scanOuter,
        scanInner, pySorted, stableInsert, cacheFind, cacheSet, swapV, arangeQ, get_geometry,
        get_centroid, has_geometry, entA, entB, baseEnt, cops, cmops, Py.bind, bind,
        List.range, List.range.loop]
      intro h
      exact absurd h (by decide))⟩

/-- C10: when `other` is not a dynamical object, the footprint sequence used
for it is built from the geometry of `self` repeated at every sample time
(line 196 reads self.get_geometry()), so the search never reads the geometry
of `other` beyond its presence and centroid: replacing that geometry by any
geometry with the same centroid leaves the whole intersects_path_with result
unchanged. -/
theorem C10_nondynamical_other_uses_self_geometry {G : Type} (mops : MathOps)
    (ops : GeoOps G) (w : World G) (self other : Entity G) (dt hor : Q) (c : IPWCache)
    (hdyn : other.is_dynamical = false) (g g' : G) (hg : other.hasGeometry = some g)
    (hcent : ops.centroid g' = ops.centroid g) :
    predFor mops ops w self other dt hor =
      Py.val ((arangeQ dt (hor + dt) dt).map (fun i => (get_geometry self, i))) ∧
    intersects_path_with mops ops w self other dt hor c =
      intersects_path_with mops ops w self { other with hasGeometry := some g' } dt hor c := by
  have h2 : has_geometry ({ other with hasGeometry := some g' } : Entity G) =
      has_geometry other := by
    simp [has_geometry, hg]
  have h3 : get_centroid ops ({ other with hasGeometry := some g' } : Entity G) =
      get_centroid ops other := by
    simp [get_centroid, hg, hcent]
  have h4 : predFor mops ops w self ({ other with hasGeometry := some g' }) dt hor =
      predFor mops ops w self other dt hor := by
    simp [predFor, hdyn]
  constructor
  · simp [predFor, hdyn]
  · simp only [intersects_path_with, ipwCompute, h2, h3, h4]

/-- C10 witness: the theorem applied to the concrete non-dynamical entity B,
whose geometry is replaced by a different-mass geometry with the same
centroid. -/
theorem C10_witness :
    predFor cmops cops [entA, entB] entA entB 1 2 =
      Py.val ((arangeQ 1 (2 + 1) 1).map (fun i => (get_geometry entA, i))) ∧
    intersects_path_with cmops cops [entA, entB] entA entB 1 2 [] =
      intersects_path_with cmops cops [entA, entB] entA
        { entB with hasGeometry := some ⟨Pt.mk 3 0, 5, true⟩ } 1 2 [] :=
  C10_nondynamical_other_uses_self_geometry cmops cops [entA, entB] entA entB 1 2 []
    rfl ⟨Pt.mk 3 0, 1, false⟩ ⟨Pt.mk 3 0, 5, true⟩ rfl rfl

/-- C2 counterexample: a pair that satisfies every hypothesis of the claim
(distinct, both with geometry and positive stored speed) and whose cached
intersection times satisfy both thresholds, yet augment_intersecting_paths
returns None rather than True, because the driving-relation guard of lines
123-125 excludes a driver paired with its own vehicle. -/
theorem C2_counterexample_driver_pair :
    drvD.name ≠ vehV.name ∧ has_geometry drvD = true ∧ has_geometry vehV = true ∧
    drvD.has_speed = some 1 ∧ vehV.has_speed = some 1 ∧
    intersects_path_with cmops cops [drvD, vehV] drvD vehV (1/4) 10 cacheDV =
      Py.val ((some 1, some 1, some (Pt.mk 2 0)), cacheDV) ∧
    ((1 : Q) + 1 < INTERSECTING_PATH_THRESHOLD ∧
      |(1 : Q) - 1| < INTERSECTING_PATH_MAX_PET) ∧
    augment_intersecting_paths cmops cops [drvD, vehV] drvD vehV cacheDV =
      Py.val (none, cacheDV) := by
  refine ⟨by decide, rfl, rfl, rfl, rfl, ?_, ?_, ?_⟩
  · simp [intersects_path_with, cacheFind, cacheDV, List.find?, drvD, vehV, baseEnt]
  · norm_num [INTERSECTING_PATH_THRESHOLD, INTERSECTING_PATH_MAX_PET]
  · have hdg : drivesGuard drvD vehV = false := by decide
    simp [augment_intersecting_paths, hdg]

/-- C2 amended: for distinct dynamical objects that both have geometry and
positive stored speed and that pass the driving-relation guard of lines
123-125, has_intersecting_path is True exactly when the intersection times
satisfy t1 + t2 < 8 s and the PET proxy is below 5 s, and it is False when
either time is absent. (Only the speed of self is actually tested by the
guard, due to Python operator precedence; both positive speeds satisfy it.)-/
theorem C2_intersecting_path_predicate {G : Type} (mops : MathOps) (ops : GeoOps G)
    (w : World G) (A B : Entity G) (c c1 : IPWCache) (r : IPWVal)
    (hname : A.name ≠ B.name) (hga : has_geometry A = true) (hgb : has_geometry B = true)
    (sA sB : Q) (hsA : A.has_speed = some sA) (hsA0 : 0 < sA)
    (hsB : B.has_speed = some sB) (hsB0 : 0 < sB)
    (hguard : drivesGuard A B = true)
    (hipw : intersects_path_with mops ops w A B (1/4) 10 c = Py.val (r, c1)) :
    (∀ t1 t2, r.1 = some t1 → r.2.1 = some t2 →
      augment_intersecting_paths mops ops w A B c =
        Py.val (some (decide (t1 + t2 < INTERSECTING_PATH_THRESHOLD ∧
          |t1 - t2| < INTERSECTING_PATH_MAX_PET)), c1)) ∧
    ((r.1 = none ∨ r.2.1 = none) →
      augment_intersecting_paths mops ops w A B c = Py.val (some false, c1)) := by
  have hst : speedTruthy mops A = true := by
    simp [speedTruthy, get_speed, hsA, truthyOpt, ne_of_gt hsA0]
  constructor
  · intro t1 t2 h1 h2
    simp only [augment_intersecting_paths, hname, hguard, hga, hgb, hst, hipw,
      Bind.bind, Py.bind_val, ne_eq, not_false_eq_true, decide_True, Bool.and_self,
      Bool.true_and, Bool.and_true, Bool.or_true, Bool.true_or, if_true, h1, h2]
  · intro hn
    rcases hn with hn | hn <;>
      simp only [augment_intersecting_paths, hname, hguard, hga, hgb, hst, hipw,
        Bind.bind, Py.bind_val, ne_eq, not_false_eq_true, decide_True, Bool.and_self,
        Bool.true_and, Bool.and_true, Bool.or_true, Bool.true_or, if_true, hn] <;>
      cases h2 : r.2.1 <;> cases h1 : r.1 <;> simp_all

/-- C2 witness: the amended predicate evaluated for two free-moving concrete
entities with a primed cache: the result is the threshold test at times
(1, 1). -/
theorem C2_witness :
    augment_intersecting_paths cmops cops [freeF, freeH] freeF freeH cacheFH =
      Py.val (some (decide ((1 : Q) + 1 < INTERSECTING_PATH_THRESHOLD ∧
        |(1 : Q) - 1| < INTERSECTING_PATH_MAX_PET)), cacheFH) :=
  (C2_intersecting_path_predicate cmops cops [freeF, freeH] freeF freeH cacheFH cacheFH
    (some 1, some 1, some (Pt.mk 3 0)) (by decide) rfl rfl 2 3 rfl (by norm_num) rfl
    (by norm_num) (by decide)
    (by simp [intersects_path_with, cacheFind, cacheFH, List.find?, freeF, freeH, baseEnt])).1
    1 1 rfl rfl

/-- C4 counterexample: the code tests height truthiness, not positivity: two
overlapping entities of height -1 (not positive) are reported as an
accident, contradicting the exactly-when claim. -/
theorem C4_counterexample_negative_height :
    has_accident_with cops negHeight1 negHeight2 = true ∧
    ¬ accidentClaim cops negHeight1 negHeight2 := by
  constructor
  · norm_num [has_accident_with, truthyOpt, has_geometry, get_geometry,
      negHeight1, negHeight2, baseEnt, cops]
  · rintro ⟨⟨h1, hh1, hpos⟩, -⟩
    simp only [negHeight1, baseEnt, Option.some.injEq] at hh1
    rw [← hh1] at hpos
    norm_num at hpos

/-- has_accident_with agrees with the amended accident relation. -/
theorem has_accident_with_iff {G : Type} (ops : GeoOps G) (e1 e2 : Entity G) :
    has_accident_with ops e1 e2 = true ↔ accidentAmended ops e1 e2 := by
  unfold has_accident_with accidentAmended
  cases h1 : e1.has_height <;> cases h2 : e2.has_height <;>
    cases g1 : e1.hasGeometry <;> cases g2 : e2.hasGeometry <;>
      simp [truthyOpt, has_geometry, get_geometry, g1, g2, and_assoc]

/-- Correctness of the nested pair loop of Scene.has_accident: it fires
exactly when a later object stands in the accident relation with some
earlier object. -/
theorem accident_loop_iff {G : Type} (ops : GeoOps G) :
    ∀ (rest seen : List (Entity G)),
    has_accident_loop ops seen rest = true ↔
    ∃ i : Fin rest.length, ∃ p ∈ seen ++ rest.take i.val,
      has_accident_with ops (rest.get i) p = true := by
  intro rest
  induction rest with
  | nil => simp [has_accident_loop]
  | cons o rest ih =>
    intro seen
    rw [has_accident_loop]
    simp only [Bool.or_eq_true, List.any_eq_true, List.length_cons]
    rw [Fin.exists_fin_succ]
    constructor
    · rintro (⟨p, hp, hacc⟩ | hloop)
      · exact Or.inl ⟨p, by simpa using hp, by simpa using hacc⟩
      · obtain ⟨i, p, hp, hacc⟩ := (ih (seen ++ [o])).mp hloop
        refine Or.inr ⟨i, p, ?_, ?_⟩
        · simpa [List.take_succ_cons, List.append_assoc] using hp
        · simpa using hacc
    · rintro (⟨p, hp, hacc⟩ | ⟨i, p, hp, hacc⟩)
      · exact Or.inl ⟨p, by simpa using hp, by simpa using hacc⟩
      · refine Or.inr ((ih (seen ++ [o])).mpr ⟨i, p, ?_, ?_⟩)
        · simpa [List.take_succ_cons, List.append_assoc] using hp
        · simpa using hacc

/-- C4 amended: the accident relation holds exactly when both heights are
present and nonzero (not: positive — see the counterexample), both entities
have geometry, the footprints intersect and neither drives the other; the
scene-level detector fires exactly when some ordered pair of its objects
stands in that relation; and zeroing either height falsifies the relation. -/
theorem C4_accident_characterisation {G : Type} (ops : GeoOps G) :
    (∀ e1 e2 : Entity G, has_accident_with ops e1 e2 = true ↔ accidentAmended ops e1 e2) ∧
    (∀ objs : List (Entity G), scene_has_accident ops objs = true ↔
      ∃ i j : Fin objs.length, j.val < i.val ∧ accidentAmended ops (objs.get i) (objs.get j)) ∧
    (∀ e1 e2 : Entity G, e1.has_height = some 0 → has_accident_with ops e1 e2 = false) ∧
    (∀ e1 e2 : Entity G, e2.has_height = some 0 → has_accident_with ops e1 e2 = false) := by
  refine ⟨has_accident_with_iff ops, ?_, ?_, ?_⟩
  · intro objs
    rw [scene_has_accident, accident_loop_iff]
    simp only [List.nil_append]
    constructor
    · rintro ⟨i, p, hp, hacc⟩
      rw [List.mem_take_iff_getElem] at hp
      obtain ⟨j, hj, hgj⟩ := hp
      have hjlen : j < objs.length := lt_of_lt_of_le hj (min_le_right _ _)
      refine ⟨i, ⟨j, hjlen⟩, lt_of_lt_of_le hj (min_le_left _ _), ?_⟩
      rw [← has_accident_with_iff]
      have hq : objs.get ⟨j, hjlen⟩ = p := hgj
      rw [hq]
      exact hacc
    · rintro ⟨i, j, hji, hA⟩
      refine ⟨i, objs.get j, ?_, (has_accident_with_iff ops _ _).mpr hA⟩
      rw [List.mem_take_iff_getElem]
      exact ⟨j.val, lt_min hji j.isLt, rfl⟩
  · intro e1 e2 h
    unfold has_accident_with
    simp [truthyOpt, h]
  · intro e1 e2 h
    unfold has_accident_with
    simp [truthyOpt, h]

/-- C4 witness: the zero-height conjunct of the characterisation evaluated at
the concrete zero-height entity. -/
theorem C4_witness :
    zeroHeight.has_height = some 0 ∧
    has_accident_with cops zeroHeight negHeight2 = false :=
  ⟨rfl, (C4_accident_characterisation cops).2.2.1 zeroHeight negHeight2 rfl⟩

/-- Structure of every record emitted by get_occlusions: the candidate has
geometry, positive footprint area within the FOV, a nonempty set of
overlapping shadows, and the percentage formula of line 104. -/
theorem get_occlusions_mem {G : Type} (ops : GeoOps G) (cutoffs : List (Entity G × G))
    (fov : G) :
    ∀ (others : List (Entity G)) (occs : List (OccRec G)),
    get_occlusions ops others cutoffs fov = Py.val occs →
    ∀ occ ∈ occs, ∃ g u,
      occ.2.1.hasGeometry = some g ∧
      0 < ops.area (ops.intersection (ops.normalize2d g) fov) ∧
      occlusionUnion ops (occlusionInts ops (ops.normalize2d g) occ.2.1 cutoffs) = some u ∧
      occ.1 = (occlusionInts ops (ops.normalize2d g) occ.2.1 cutoffs).map (·.1) ∧
      occ.2.2 = min ((pyInt ((ops.area u /
        ops.area (ops.intersection (ops.normalize2d g) fov)) * 100) : Q) / 100) 1 := by
  intro others
  induction others with
  | nil =>
    intro occs h occ hmem
    simp only [get_occlusions] at h
    injection h with h
    subst h
    cases hmem
  | cons x rest ih =>
    intro occs h occ hmem
    simp only [get_occlusions] at h
    cases hx : x.hasGeometry with
    | none =>
      rw [hx] at h
      cases h
    | some g =>
      rw [hx] at h
      cases hrest : get_occlusions ops rest cutoffs fov with
      | exn =>
        rw [hrest] at h
        simp only [Bind.bind, Py.bind_exn] at h
        cases h
      | val rs =>
        rw [hrest] at h
        simp only [Bind.bind, Py.bind_val] at h
        by_cases hpos : ops.area (ops.intersection (ops.normalize2d g) fov) > 0
        · rw [if_pos hpos] at h
          cases hu : occlusionUnion ops (occlusionInts ops (ops.normalize2d g) x cutoffs) with
          | some u =>
            rw [hu] at h
            injection h with h
            subst h
            rcases List.mem_cons.mp hmem with h1 | h1
            · subst h1
              exact ⟨g, u, hx, hpos, hu, rfl, rfl⟩
            · exact ih rs hrest occ h1
          | none =>
            rw [hu] at h
            injection h with h
            subst h
            exact ih rs hrest occ hmem
        · rw [if_neg hpos] at h
          injection h with h
          subst h
          exact ih rs hrest occ hmem

/-- The code percentage min(int(r * 100) / 100, 1) equals the spec form —
floor to the nearest 0.01, clamped into [0, 1] — for a nonnegative ratio,
and lies in [0, 1]. -/
theorem percentage_spec (r : Q) (hr : 0 ≤ r) :
    min ((pyInt (r * 100) : Q) / 100) 1 = specFloorClamp r ∧
    0 ≤ min ((pyInt (r * 100) : Q) / 100) 1 ∧
    min ((pyInt (r * 100) : Q) / 100) 1 ≤ 1 := by
  have h0 : (0 : Q) ≤ r * 100 := by positivity
  have hint : pyInt (r * 100) = ⌊r * 100⌋ := by simp [pyInt, h0]
  have hnn : (0 : Q) ≤ (⌊r * 100⌋ : Q) / 100 := by
    have := Int.floor_nonneg.mpr h0
    positivity
  refine ⟨?_, ?_, min_le_right _ _⟩
  · rw [hint, specFloorClamp, min_comm]
    rw [max_eq_right (le_min (by norm_num) hnn)]
  · rw [hint]
    exact le_min hnn (by norm_num)

/-- A candidate whose (normalised) footprint does not intersect the field of
view never appears as the occluded entity of any emitted occlusion. -/
theorem get_occlusions_no_record {G : Type} (ops : GeoOps G)
    (cutoffs : List (Entity G × G)) (fov : G)
    (hint : ∀ g h : G, ops.intersects g h = false → ops.area (ops.intersection g h) = 0) :
    ∀ (others : List (Entity G)) (occs : List (OccRec G)),
    get_occlusions ops others cutoffs fov = Py.val occs →
    ∀ (x : Entity G) (g : G), x.hasGeometry = some g →
    ops.intersects (ops.normalize2d g) fov = false →
    ∀ occ ∈ occs, occ.2.1 ≠ x := by
  intro others
  induction others with
  | nil =>
    intro occs h x g hg hnint occ hmem
    simp only [get_occlusions] at h
    injection h with h
    subst h
    cases hmem
  | cons y rest ih =>
    intro occs h x g hg hnint occ hmem
    simp only [get_occlusions] at h
    cases hy : y.hasGeometry with
    | none =>
      rw [hy] at h
      cases h
    | some gy =>
      rw [hy] at h
      cases hrest : get_occlusions ops rest cutoffs fov with
      | exn =>
        rw [hrest] at h
        simp only [Bind.bind, Py.bind_exn] at h
        cases h
      | val rs =>
        rw [hrest] at h
        simp only [Bind.bind, Py.bind_val] at h
        by_cases hxy : y = x
        · subst hxy
          rw [hy] at hg
          injection hg with hg
          rw [← hg] at hnint
          rw [if_neg (by rw [hint _ _ hnint]; norm_num)] at h
          injection h with h
          subst h
          exact ih rs hrest y gy hy hnint occ hmem
        · by_cases hpos : ops.area (ops.intersection (ops.normalize2d gy) fov) > 0
          · rw [if_pos hpos] at h
            cases hu : occlusionUnion ops (occlusionInts ops (ops.normalize2d gy) y cutoffs) with
            | some u =>
              rw [hu] at h
              injection h with h
              subst h
              rcases List.mem_cons.mp hmem with h1 | h1
              · subst h1
                exact fun hc => hxy hc
              · exact ih rs hrest x g hg hnint occ h1
            | none =>
              rw [hu] at h
              injection h with h
              subst h
              exact ih rs hrest x g hg hnint occ hmem
          · rw [if_neg hpos] at h
            injection h with h
            subst h
            exact ih rs hrest x g hg hnint occ hmem

/-- A successful augment_occlusion run produces either no records or exactly
the occlusions emitted by get_occlusions whose rate exceeds 0.2. -/
theorem augment_occlusion_val {G : Type} (mops : MathOps) (ops : GeoOps G) (w : World G)
    (self : Entity G) (recs : List (OccRec G))
    (h : augment_occlusion mops ops w self = Py.val recs) :
    recs = [] ∨ ∃ others cutoffs fov occs,
      get_occlusions ops others cutoffs fov = Py.val occs ∧
      recs = occs.filter (fun occ => occ.2.2 > 0.2) := by
  rw [augment_occlusion] at h
  by_cases h1 : has_geometry self = true
  · rw [if_pos h1] at h
    cases hyok : observerYawOk w self with
    | exn =>
      rw [hyok] at h
      simp only [Bind.bind, Py.bind_exn] at h
      cases h
    | val yok =>
      rw [hyok] at h
      simp only [Bind.bind, Py.bind_val] at h
      by_cases h2 : yok = true ∧ self.is_occluded_for_in_occlusion = []
      · rw [if_pos h2] at h
        cases hyaw : observerYaw w self with
        | exn =>
          rw [hyaw] at h
          simp only [Bind.bind, Py.bind_exn] at h
          cases h
        | val yaw =>
          rw [hyaw] at h
          simp only [Bind.bind, Py.bind_val] at h
          cases hgeo : get_geometry self with
          | none =>
            rw [hgeo] at h
            exact absurd h (by simp)
          | some self_geom =>
            simp only [hgeo] at h
            cases hhead : observerHead mops ops w self self_geom yaw with
            | exn =>
              rw [hhead] at h
              simp only [Bind.bind, Py.bind_exn] at h
              cases h
            | val head =>
              rw [hhead] at h
              simp only [Bind.bind, Py.bind_val] at h
              cases hareas : get_occluded_areas mops ops
                  (w.filter (fun x => is_in_fov ops self self_geom x
                    (ops.buffer (ops.pointOf head) (observerVisibility self)) false))
                  (ops.buffer (ops.pointOf head) (observerVisibility self))
                  (some (observerVisibility self)) with
              | exn =>
                rw [hareas] at h
                simp only [Bind.bind, Py.bind_exn] at h
                cases h
              | val areas =>
                rw [hareas] at h
                simp only [Bind.bind, Py.bind_val] at h
                cases hoccs : get_occlusions ops
                    (w.filter (fun x => is_in_fov ops self self_geom x
                      (ops.buffer (ops.pointOf head) (observerVisibility self)) true)) areas
                    (ops.buffer (ops.pointOf head) (observerVisibility self)) with
                | exn =>
                  rw [hoccs] at h
                  simp only [Bind.bind, Py.bind_exn] at h
                  cases h
                | val occs =>
                  rw [hoccs] at h
                  simp only [Bind.bind, Py.bind_val] at h
                  injection h with h
                  exact Or.inr ⟨_, _, _, _, hoccs, h.symm⟩
      · rw [if_neg h2] at h
        injection h with h
        exact Or.inl h.symm
  · rw [if_neg h1] at h
    injection h with h
    exact Or.inl h.symm

/-- C5: every occlusion percentage of an emitted record equals the
occluded-shadow union area over the candidate footprint area within the
field of view, floored to the nearest 0.01 and clamped into [0, 1]; records
exist only above the 0.2 threshold; and a candidate whose footprint does not
intersect the FOV produces no record. The Geometry Adapter is assumed to
return nonnegative areas and zero-area intersections for non-intersecting
geometries. -/
theorem C5_occlusion_percentage {G : Type} (mops : MathOps) (ops : GeoOps G) (w : World G)
    (self : Entity G)
    (harea : ∀ g : G, 0 ≤ ops.area g)
    (hint : ∀ g h : G, ops.intersects g h = false → ops.area (ops.intersection g h) = 0)
    (recs : List (OccRec G))
    (hrun : augment_occlusion mops ops w self = Py.val recs) :
    (∀ rec ∈ recs, (1/5 : Q) < rec.2.2 ∧ 0 ≤ rec.2.2 ∧ rec.2.2 ≤ 1 ∧
      ∃ cutoffs fov g u, rec.2.1.hasGeometry = some g ∧
        0 < ops.area (ops.intersection (ops.normalize2d g) fov) ∧
        occlusionUnion ops (occlusionInts ops (ops.normalize2d g) rec.2.1 cutoffs) = some u ∧
        rec.1 = (occlusionInts ops (ops.normalize2d g) rec.2.1 cutoffs).map (·.1) ∧
        rec.2.2 = specFloorClamp (ops.area u /
          ops.area (ops.intersection (ops.normalize2d g) fov))) ∧
    (∀ (others : List (Entity G)) (cutoffs : List (Entity G × G)) (fov : G)
        (occs : List (OccRec G)),
      get_occlusions ops others cutoffs fov = Py.val occs →
      ∀ (x : Entity G) (g : G), x.hasGeometry = some g →
      ops.intersects (ops.normalize2d g) fov = false →
      ∀ occ ∈ occs, occ.2.1 ≠ x) := by
  constructor
  · intro rec hmem
    rcases augment_occlusion_val mops ops w self recs hrun with
      hempty | ⟨others, cutoffs, fov, occs, hoccs, hfilter⟩
    · subst hempty
      cases hmem
    · subst hfilter
      have hmem2 := List.mem_filter.mp hmem
      have hgt0 := of_decide_eq_true hmem2.2
      have hgt : (1/5 : Q) < rec.2.2 := by
        norm_num at hgt0
        exact hgt0
      obtain ⟨g, u, hg, hpos, hu, hfst, hperc⟩ :=
        get_occlusions_mem ops cutoffs fov others occs hoccs rec hmem2.1
      have hr : 0 ≤ ops.area u / ops.area (ops.intersection (ops.normalize2d g) fov) :=
        div_nonneg (harea u) (le_of_lt hpos)
      obtain ⟨hspec, hnn, hle⟩ := percentage_spec _ hr
      refine ⟨hgt, ?_, ?_, cutoffs, fov, g, u, hg, hpos, hu, hfst, ?_⟩
      · rw [hperc]
        exact hnn
      · rw [hperc]
        exact hle
      · rw [hperc, hspec]
  · exact fun others cutoffs fov occs hoccs =>
      get_occlusions_no_record ops cutoffs fov hint others occs hoccs

set_option maxHeartbeats 2000000 in
/-- Evaluation of the occlusion engine on the concrete world: the blocker and
the target each fully occlude the other within the FOV, giving two records of
rate 1. -/
theorem occlRunEval : augment_occlusion cmops cops occlWorld obsO =
    Py.val [([targetT], blockerB, 1), ([blockerB], targetT, 1)] := by
  norm_num [augment_occlusion, observerYawOk, observerYaw, observerHead, observerVisibility,
    get_occlusions, get_occluded_areas, get_occluded_areas.go,
    cutoffFor, occlusionInts, occlusionUnion, is_in_fov, listMin, listMax, listIndex,
    get_left_back_point, get_left_front_point, arangeQ, qmod, pyInt, has_geometry,
    get_geometry, occlWorld, obsO, blockerB, targetT, baseEnt, cops, cmops,
    OCCLUSION_SAMPLING_STEP, DEFAULT_VISIBILITY, Py.bind, bind, List.filter, List.filterMap,
    List.find?, List.range, List.range.loop, truthyOpt]
  simp only [String.reduceEq, reduceIte]
  norm_num [occlusionUnion, pyInt]

/-- C5 witness: the percentage statement applied to the first record of the
concrete occlusion run. -/
theorem C5_witness :
    (1/5 : Q) < 1 ∧ 0 ≤ (1 : Q) ∧ (1 : Q) ≤ 1 ∧
    ∃ cutoffs fov g u, blockerB.hasGeometry = some g ∧
      0 < cops.area (cops.intersection (cops.normalize2d g) fov) ∧
      occlusionUnion cops (occlusionInts cops (cops.normalize2d g) blockerB cutoffs) = some u ∧
      ([targetT] : List (Entity CG)) =
        (occlusionInts cops (cops.normalize2d g) blockerB cutoffs).map (·.1) ∧
      (1 : Q) = specFloorClamp (cops.area u /
        cops.area (cops.intersection (cops.normalize2d g) fov)) :=
  (C5_occlusion_percentage cmops cops occlWorld obsO (fun g => by simp [cops])
    (fun g h hgh => by
      simp only [cops, decide_eq_false_iff_not] at hgh
      simp [cops, hgh])
    _ occlRunEval).1 ([targetT], blockerB, 1) (by simp)

/-- C7 counterexample: Scene.copy rounds the new timestamp to the decimal
places of delta_t (numpy.round at line 267), so for a source timestamp 0.125
and delta_t 0.1 the new timestamp is 0.2, not 0.125 + 0.1 = 0.225 as the
claim states. -/
theorem C7_counterexample_timestamp_rounding :
    (sceneCopy (fun _ => false) ⟨1/10, some 1⟩ [] ⟨1/8, []⟩).2.timestamp = 1/5 ∧
    (1/5 : Q) ≠ 1/8 + 1/10 := by
  constructor
  · norm_num [sceneCopy, pyRound, roundHE, copyInds, applyProps]
  · norm_num

theorem setProp_same (props : String → List Val) (p : String) (vs : List Val) :
    setProp props p vs p = vs := by
  simp [setProp]

theorem setProp_other (props : String → List Val) (p q : String) (vs : List Val)
    (h : q ≠ p) : setProp props p vs q = props q := by
  simp [setProp, h]

theorem addPropVal_other (f : String → Bool) (p q : String) (v : Val)
    (props : String → List Val) (h : q ≠ p) :
    addPropVal f p v props q = props q := by
  unfold addPropVal
  split_ifs <;> simp [setProp, h]

/-- Appending a list of pairwise-new values one by one onto a non-functional
property accumulates exactly that list. -/
theorem foldl_add_nonfun (f : String → Bool) (q : String) (hq : f q = false) :
    ∀ (vs : List Val) (acc : String → List Val), (acc q ++ vs).Nodup →
    (vs.foldl (fun a2 v => addPropVal f q v a2) acc) q = acc q ++ vs := by
  intro vs
  induction vs with
  | nil => simp
  | cons v rest ih =>
    intro acc hnd
    have hvnotin : v ∉ acc q := by
      intro hc
      have := List.disjoint_of_nodup_append hnd
      exact this hc (by simp)
    have step : addPropVal f q v acc = setProp acc q (acc q ++ [v]) := by
      simp [addPropVal, hq, hvnotin]
    rw [List.foldl_cons, step]
    have hnd2 : ((setProp acc q (acc q ++ [v]) q) ++ rest).Nodup := by
      rw [setProp_same]
      simpa [List.append_assoc] using hnd
    rw [ih _ hnd2, setProp_same, List.append_assoc]
    rfl

/-- Lookup of a property not processed by the inner value fold. -/
theorem foldl_add_other (f : String → Bool) (q p : String) (h : p ≠ q) :
    ∀ (vs : List Val) (acc : String → List Val),
    (vs.foldl (fun a2 v => addPropVal f q v a2) acc) p = acc p := by
  intro vs
  induction vs with
  | nil => simp
  | cons v rest ih =>
    intro acc
    rw [List.foldl_cons, ih, addPropVal_other _ _ _ _ _ h]

/-- The outer property fold leaves untouched the lookup of any name not in
the processed list. -/
theorem foldl_props_other (f : String → Bool) (tk : List String) (m : List (ℕ × ℕ))
    (oldInd : Ind) (p : String) :
    ∀ (l : List String), p ∉ l → ∀ acc : String → List Val,
    (l.foldl (fun acc q =>
      if q ∈ tk then (oldInd.props q).foldl (fun acc2 v => addPropVal f q (trVal m v) acc2) acc
      else acc) acc) p = acc p := by
  intro l
  induction l with
  | nil => intro _ acc; rfl
  | cons r rs ihr =>
    intro hp acc
    have hpr : p ≠ r := fun hc => hp (by simp [hc])
    rw [List.foldl_cons, ihr (fun hc => hp (by simp [hc]))]
    by_cases hr : r ∈ tk
    · rw [if_pos hr, ← List.foldl_map (trVal m) (fun a2 v => addPropVal f r v a2)]
      exact foldl_add_other f r p hpr _ _
    · rw [if_neg hr]

/-- Pointwise characterisation of the property-copy pass of Scene.copy for
one individual, starting from the empty store of a fresh individual. -/
theorem copyProps_apply (f : String → Bool) (tk : List String) (m : List (ℕ × ℕ))
    (oldInd : Ind) (p : String)
    (hnodup : oldInd.propNames.Nodup)
    (hfun : f p = true → (oldInd.props p).length ≤ 1)
    (hvals : ((oldInd.props p).map (trVal m)).Nodup) :
    copyProps f tk m oldInd (fun _ => []) p =
      if p ∈ tk ∧ p ∈ oldInd.propNames then (oldInd.props p).map (trVal m) else [] := by
  unfold copyProps
  suffices hgen : ∀ (l : List String), l.Nodup → (∀ acc : String → List Val, acc p = [] →
      (l.foldl (fun acc q =>
        if q ∈ tk then (oldInd.props q).foldl (fun acc2 v => addPropVal f q (trVal m v) acc2) acc
        else acc) acc) p =
      if p ∈ tk ∧ p ∈ l then (oldInd.props p).map (trVal m) else []) by
    exact hgen oldInd.propNames hnodup (fun _ => []) rfl
  intro l
  induction l with
  | nil =>
    intro _ acc hacc
    simpa using hacc
  | cons q rest ih =>
    intro hnd acc hacc
    rw [List.foldl_cons]
    have hndrest := (List.nodup_cons.mp hnd).2
    by_cases hpq : p = q
    · subst hpq
      have hpnotrest : p ∉ rest := (List.nodup_cons.mp hnd).1
      have hrest := foldl_props_other f tk m oldInd p rest hpnotrest
      by_cases htk : p ∈ tk
      · rw [if_pos htk, hrest]
        rw [← List.foldl_map (trVal m) (fun a2 v => addPropVal f p v a2)]
        by_cases hf : f p = true
        · rcases hlen : oldInd.props p with _ | ⟨v, rest2⟩
          · simpa [hlen] using hacc
          · have h1 : rest2.length + 1 ≤ 1 := by simpa [hlen] using hfun hf
            have h2 : rest2 = [] := List.length_eq_zero.mp (by omega)
            subst h2
            simp [hlen, addPropVal, hf, setProp_same, hacc, htk]
        · have hfq : f p = false := by simpa using hf
          have hfold := foldl_add_nonfun f p hfq ((oldInd.props p).map (trVal m)) acc
            (by rw [hacc]; simpa using hvals)
          rw [hacc] at hfold
          simp only [List.nil_append] at hfold
          rw [hfold]
          simp [htk, List.mem_cons]
      · rw [if_neg htk, hrest, hacc]
        simp [htk]
    · have hstep : (if q ∈ tk then (oldInd.props q).foldl
          (fun acc2 v => addPropVal f q (trVal m v) acc2) acc else acc) p = [] := by
        by_cases hq : q ∈ tk
        · rw [if_pos hq, ← List.foldl_map (trVal m) (fun a2 v => addPropVal f q v a2)]
          rw [foldl_add_other f q p hpq _ _, hacc]
        · rw [if_neg hq, hacc]
      rw [ih hndrest _ hstep]
      simp [List.mem_cons, hpq]

theorem foldl_addClass (l : List String) :
    ∀ acc : List String, (∀ x ∈ l, x ∉ acc) → l.Nodup →
    l.foldl (fun acc cls => if cls ∈ acc then acc else acc ++ [cls]) acc = acc ++ l := by
  induction l with
  | nil => simp
  | cons c rest ih =>
    intro acc hdisj hnd
    rw [List.foldl_cons, if_neg (hdisj c (by simp))]
    rw [ih (acc ++ [c]) ?hd (List.nodup_cons.mp hnd).2]
    · simp
    case hd =>
      intro x hx
      simp only [List.mem_append, List.mem_singleton]
      rintro (h1 | h2)
      · exact hdisj x (by simp [hx]) h1
      · exact (List.nodup_cons.mp hnd).1 (h2 ▸ hx)

/-- With distinct direct classes, the class-copy loop reproduces them. -/
theorem copyClasses_nodup (l : List String) (h : l.Nodup) : copyClasses l = l := by
  cases l with
  | nil => rfl
  | cons c rest =>
    show List.foldl (fun acc cls => if cls ∈ acc then acc else acc ++ [cls]) [c] (c :: rest) =
      c :: rest
    rw [List.foldl_cons, if_pos (by simp)]
    rw [foldl_addClass rest [c] ?hd (List.nodup_cons.mp h).2]
    · simp
    case hd =>
      intro x hx
      simp only [List.mem_singleton]
      intro hc
      exact (List.nodup_cons.mp h).1 (hc ▸ hx)

/-- With distinct individual names, Scene.copy skips nothing: the mapping and
the created individuals are the enumeration of the source individuals. -/
theorem copyInds_eq :
    ∀ (l : List Ind) (seen : List String) (k : ℕ),
    (l.map (·.name)).Nodup → (∀ e ∈ l, e.name ∉ seen) →
    copyInds l seen k = ((l.enumFrom k).map (fun q => (q.2.id, q.1)),
                         (l.enumFrom k).map (fun q => mkNewInd q.1 q.2)) := by
  intro l
  induction l with
  | nil => intro seen k _ _; rfl
  | cons ind rest ih =>
    intro seen k hnd hseen
    rw [copyInds, if_neg (hseen ind (by simp))]
    rw [ih (seen ++ [ind.name]) (k + 1) ((List.nodup_cons.mp (by simpa using hnd)).2) ?hd]
    · simp [List.enumFrom]
    case hd =>
      intro e he
      simp only [List.mem_append, List.mem_singleton]
      rintro (h1 | h2)
      · exact hseen e (by simp [he]) h1
      · have := (List.nodup_cons.mp (by simpa using hnd : (ind.name :: rest.map (·.name)).Nodup)).1
        exact this (h2 ▸ List.mem_map_of_mem (fun x => x.name) he)


/-- The mapping fold of applyProps acts elementwise on the new individuals. -/
theorem foldl_apply_eq_map (f : String → Bool) (tk : List String) (src : List Ind)
    (m : List (ℕ × ℕ)) :
    ∀ (l : List (ℕ × ℕ)) (news : List Ind),
    l.foldl (fun ns pair =>
      match src.find? (fun ind => ind.id == pair.1) with
      | some oldInd =>
        ns.map (fun ni =>
          if ni.id = pair.2 then { ni with props := copyProps f tk m oldInd ni.props }
          else ni)
      | none => ns) news
    = news.map (fun ni => l.foldl (applyStep f tk src m) ni) := by
  intro l
  induction l with
  | nil =>
    intro news
    simp
  | cons pair rest ih =>
    intro news
    rw [List.foldl_cons]
    cases hfind : src.find? (fun ind => ind.id == pair.1) with
    | some old =>
      rw [ih, List.map_map]
      refine List.map_congr_left (fun ni _ => ?_)
      simp only [Function.comp, List.foldl_cons]
      congr 1
      simp [applyStep, hfind]
    | none =>
      rw [ih]
      refine List.map_congr_left (fun ni _ => ?_)
      rw [List.foldl_cons]
      congr 1
      simp [applyStep, hfind]

theorem applyProps_eq_map (f : String → Bool) (tk : List String) (src : List Ind)
    (m : List (ℕ × ℕ)) (news : List Ind) :
    applyProps f tk src m news = news.map (fun ni => m.foldl (applyStep f tk src m) ni) :=
  foldl_apply_eq_map f tk src m m news

theorem applyStep_id (f : String → Bool) (tk : List String) (src : List Ind)
    (m : List (ℕ × ℕ)) (ni : Ind) (pair : ℕ × ℕ) (h : ni.id ≠ pair.2) :
    applyStep f tk src m ni pair = ni := by
  unfold applyStep
  cases src.find? (fun ind => ind.id == pair.1) <;> simp [h]

theorem foldl_applyStep_skip (f : String → Bool) (tk : List String) (src : List Ind)
    (m : List (ℕ × ℕ)) :
    ∀ (l : List (ℕ × ℕ)) (ni : Ind), ni.id ∉ l.map (·.2) →
    l.foldl (applyStep f tk src m) ni = ni := by
  intro l
  induction l with
  | nil => intro ni _; rfl
  | cons pair rest ih =>
    intro ni h
    rw [List.foldl_cons, applyStep_id f tk src m ni pair (fun hc => h (by simp [hc]))]
    exact ih ni (fun hc => h (by simp [hc]))

theorem foldl_applyStep_unique (f : String → Bool) (tk : List String) (src : List Ind)
    (m : List (ℕ × ℕ)) :
    ∀ (l : List (ℕ × ℕ)), (l.map (·.2)).Nodup → ∀ (pair : ℕ × ℕ), pair ∈ l →
    ∀ (old : Ind), src.find? (fun ind => ind.id == pair.1) = some old →
    ∀ (ni : Ind), ni.id = pair.2 →
    l.foldl (applyStep f tk src m) ni = { ni with props := copyProps f tk m old ni.props } := by
  intro l
  induction l with
  | nil =>
    intro _ pair hmem
    cases hmem
  | cons pr rest ih =>
    intro hnd pair hmem old hfind ni hid
    rw [List.map_cons] at hnd
    have hnd2 := List.nodup_cons.mp hnd
    rw [List.foldl_cons]
    rcases List.mem_cons.mp hmem with heq | hmem2
    · subst heq
      have hstep : applyStep f tk src m ni pair =
          { ni with props := copyProps f tk m old ni.props } := by
        simp [applyStep, hfind, hid]
      rw [hstep]
      exact foldl_applyStep_skip f tk src m rest _ (by simpa [hid] using hnd2.1)
    · have hne : pair.2 ≠ pr.2 := by
        intro hc
        exact hnd2.1 (hc ▸ List.mem_map_of_mem (·.2) hmem2)
      rw [applyStep_id f tk src m ni pr (by rw [hid]; exact hne)]
      exact ih hnd2.2 pair hmem2 old hfind ni hid

/-- With distinct ids, find-by-id returns the individual itself. -/
theorem find_by_id (l : List Ind) (hid : (l.map (·.id)).Nodup) :
    ∀ ind ∈ l, l.find? (fun e => e.id == ind.id) = some ind := by
  induction l with
  | nil => intro ind h; cases h
  | cons h rest ih =>
    intro ind hmem
    rw [List.map_cons] at hid
    have hnd2 := List.nodup_cons.mp hid
    rcases List.mem_cons.mp hmem with heq | hmem2
    · subst heq
      simp [List.find?]
    · have hne : h.id ≠ ind.id := by
        intro hc
        exact hnd2.1 (hc ▸ List.mem_map_of_mem (·.id) hmem2)
      rw [List.find?]
      rw [show (h.id == ind.id) = false by simpa using hne]
      exact ih hnd2.2 ind hmem2

theorem canonMap_snd_nodup (src : SceneM) : ((canonMap src).map (·.2)).Nodup := by
  unfold canonMap
  rw [List.map_map]
  have hcomp : ((fun x : ℕ × ℕ => x.2) ∘ fun q : ℕ × Ind => (q.2.id, q.1)) =
      (Prod.fst : ℕ × Ind → ℕ) := rfl
  rw [hcomp, List.enum_map_fst]
  exact List.nodup_range _

/-- The individuals of the copied scene: one per source individual, with the
fresh id, the same name, the copied classes, and the copied properties. -/
theorem sceneCopy_inds (f : String → Bool) (tk : List String) (δ : PyDecimal) (src : SceneM)
    (hn : (src.inds.map (·.name)).Nodup) (hi : (src.inds.map (·.id)).Nodup) :
    (sceneCopy f δ tk src).2.inds =
      src.inds.enum.map (fun q =>
        { id := q.1, name := q.2.name, is_a := copyClasses q.2.is_a,
          propNames := [],
          props := copyProps f tk (canonMap src) q.2 (fun _ => []) }) := by
  unfold sceneCopy
  rw [copyInds_eq src.inds [] 0 hn (by simp)]
  simp only
  rw [applyProps_eq_map]
  show (src.inds.enum.map (fun q => mkNewInd q.1 q.2)).map
      (fun ni => (canonMap src).foldl (applyStep f tk src.inds (canonMap src)) ni) = _
  rw [List.map_map]
  refine List.map_congr_left (fun q hq => ?_)
  have hqmem : q.2 ∈ src.inds := by
    rw [List.mem_enum_iff_getElem?] at hq
    exact List.getElem?_mem hq
  have hpair : (q.2.id, q.1) ∈ canonMap src := List.mem_map_of_mem _ hq
  have hfind := find_by_id src.inds hi q.2 hqmem
  simp only [Function.comp]
  rw [foldl_applyStep_unique f tk src.inds (canonMap src) (canonMap src)
    (canonMap_snd_nodup src) (q.2.id, q.1) hpair q.2 hfind (mkNewInd q.1 q.2) rfl]
  rfl



/-- The inner value loop of the generic copy writes only the property it
copies. -/
theorem genCopy_inner_other (f : String → Bool) (m : List (ℕ × ℕ)) (q p : String)
    (hpq : p ≠ q) :
    ∀ (vs : List Val) (acc : String → List Val),
    (vs.foldl (fun a2 v =>
      if f q then setProp a2 q [trVal m v]
      else setProp a2 q (a2 q ++ [trVal m v])) acc) p = acc p := by
  intro vs
  induction vs with
  | nil => intro acc; rfl
  | cons v rest ih =>
    intro acc
    rw [List.foldl_cons, ih]
    by_cases hf : f q
    · rw [if_pos hf]
      exact setProp_other acc q p _ hpq
    · rw [if_neg hf]
      exact setProp_other acc q p _ hpq

/-- The generic copy loop never changes a property that already holds a
value: the guard requires the target list to be empty. -/
theorem genCopy_fold_preserve (f : String → Bool) (m : List (ℕ × ℕ)) (thing : Ind) :
    ∀ (l : List String) (acc : String → List Val) (p : String), acc p ≠ [] →
    (l.foldl (fun acc q =>
      if acc q = [] ∧ ¬ q.startsWith "_" then
        (thing.props q).foldl (fun a2 v =>
          if f q then setProp a2 q [trVal m v]
          else setProp a2 q (a2 q ++ [trVal m v])) acc
      else acc) acc) p = acc p := by
  intro l
  induction l with
  | nil => intro acc p _; rfl
  | cons q rest ih =>
    intro acc p hp
    rw [List.foldl_cons]
    by_cases hg : acc q = [] ∧ ¬ q.startsWith "_"
    · rw [if_pos hg]
      have hpq : p ≠ q := fun hc => hp (by rw [hc]; exact hg.1)
      have hinner := genCopy_inner_other f m q p hpq (thing.props q) acc
      rw [ih _ p (by rw [hinner]; exact hp), hinner]
    · rw [if_neg hg]
      exact ih acc p hp

/-- genCopy preserves every already-populated property of the new
individual. -/
theorem genCopy_preserve (f : String → Bool) (m : List (ℕ × ℕ)) (thing : Ind)
    (props : String → List Val) (p : String) (hp : props p ≠ []) :
    genCopy f m thing props p = props p :=
  genCopy_fold_preserve f m thing thing.propNames props p hp

/-- The generic rule is the map of the elementwise genStep. -/
theorem generic_simulate_eq_map (f : String → Bool) (thing : Ind) (m : List (ℕ × ℕ))
    (news : List Ind) :
    generic_simulate f thing m news = news.map (fun ni => genStep f m ni thing) := by
  unfold generic_simulate genStep
  cases hfind : m.find? (fun p => p.1 == thing.id) with
  | none => simp
  | some pair => rfl

/-- Folding the generic rule over the ordered old individuals is a map of
per-individual genStep folds. -/
theorem foldl_generic_eq_map (f : String → Bool) (m : List (ℕ × ℕ)) :
    ∀ (olds : List Ind) (news : List Ind),
    olds.foldl (fun ns ind => generic_simulate f ind m ns) news =
      news.map (fun ni => olds.foldl (genStep f m) ni) := by
  intro olds
  induction olds with
  | nil => intro news; simp
  | cons o os ih =>
    intro news
    rw [List.foldl_cons, generic_simulate_eq_map, ih, List.map_map]
    rfl

/-- genStep keeps the identity fields and every populated property of the
new individual. -/
theorem genStep_preserve (f : String → Bool) (m : List (ℕ × ℕ)) (ni thing : Ind) :
    (genStep f m ni thing).id = ni.id ∧ (genStep f m ni thing).name = ni.name ∧
    (genStep f m ni thing).is_a = ni.is_a ∧
    ∀ p : String, ni.props p ≠ [] → (genStep f m ni thing).props p = ni.props p := by
  cases hfind : m.find? (fun pr => pr.1 == thing.id) with
  | none =>
    simp [genStep, hfind]
  | some pair =>
    simp only [genStep, hfind]
    by_cases hid : ni.id = pair.2
    · rw [if_pos hid]
      exact ⟨rfl, rfl, rfl, fun p hp => genCopy_preserve f m thing ni.props p hp⟩
    · rw [if_neg hid]
      exact ⟨rfl, rfl, rfl, fun _ _ => rfl⟩

/-- The genStep fold over all old individuals keeps identity fields and
populated properties. -/
theorem foldl_genStep_preserve (f : String → Bool) (m : List (ℕ × ℕ)) :
    ∀ (olds : List Ind) (ni : Ind),
    (olds.foldl (genStep f m) ni).id = ni.id ∧
    (olds.foldl (genStep f m) ni).name = ni.name ∧
    (olds.foldl (genStep f m) ni).is_a = ni.is_a ∧
    ∀ p : String, ni.props p ≠ [] →
      (olds.foldl (genStep f m) ni).props p = ni.props p := by
  intro olds
  induction olds with
  | nil => intro ni; exact ⟨rfl, rfl, rfl, fun _ _ => rfl⟩
  | cons o os ih =>
    intro ni
    rw [List.foldl_cons]
    obtain ⟨h1, h2, h3, h4⟩ := genStep_preserve f m ni o
    obtain ⟨g1, g2, g3, g4⟩ := ih (genStep f m ni o)
    refine ⟨g1.trans h1, g2.trans h2, g3.trans h3, fun p hp => ?_⟩
    rw [g4 p (by rw [h4 p hp]; exact hp), h4 p hp]

/-- On a scene with distinct names, the mapping built by Scene.copy is the
canonical enumeration mapping. -/
theorem sceneCopy_map_eq (f : String → Bool) (δ : PyDecimal) (tk : List String) (src : SceneM)
    (hn : (src.inds.map (·.name)).Nodup) :
    (sceneCopy f δ tk src).1 = canonMap src := by
  unfold sceneCopy
  rw [copyInds_eq src.inds [] 0 hn (by simp)]
  rfl

/-- Scene.simulate with the generic rule: the individual list is the copied
list with each new individual run through the genStep fold. -/
theorem sceneSimulate_generic_inds (f : String → Bool) (δ : PyDecimal) (tk : List String)
    (sortKey : Ind → ℤ) (src : SceneM) :
    (sceneSimulate f δ tk sortKey (fun _ => generic_simulate f) src).inds =
      (sceneCopy f δ (["hasGeometry", "asWKT", "has_height", "comment"] ++ tk) src).2.inds.map
        (fun ni =>
          (pySorted (fun a b => decide (sortKey a ≤ sortKey b))
              ((sceneCopy f δ (["hasGeometry", "asWKT", "has_height", "comment"] ++ tk)
                  src).1.filterMap
                (fun pair => src.inds.find? (fun i => i.id == pair.1)))).foldl
            (genStep f
              (sceneCopy f δ (["hasGeometry", "asWKT", "has_height", "comment"] ++ tk) src).1)
            ni) :=
  foldl_generic_eq_map f _ _ _

/-- C7: amended characterisation of Scene.copy and Scene.simulate. On a scene
with distinct individual names and store ids whose property stores are
well-formed (functional properties carry at most one value; translated value
lists have no duplicates), (1) when str(delta_t) has no dot the new timestamp
is the source timestamp plus delta_t, (2) when it has a dot the sum is
additionally rounded half-even to delta_t's printed decimal digits, (3) every
source individual yields a copied individual with the same name, the same
direct classes (when they are distinct), and exactly the to_keep properties
it carries, translated through the old-to-new mapping, and (4) stepping with
delta_t = 0 under the generic update rule keeps the timestamp and, for every
preserved populated property, the translated source values. -/
theorem C7_scene_copy_characterisation (f : String → Bool) (tk : List String) (src : SceneM)
    (hn : (src.inds.map (·.name)).Nodup) (hi : (src.inds.map (·.id)).Nodup)
    (hprop : ∀ ind ∈ src.inds, ind.propNames.Nodup ∧ ∀ p : String,
      (f p = true → (ind.props p).length ≤ 1) ∧
      ((ind.props p).map (trVal (canonMap src))).Nodup) :
    (∀ δ : PyDecimal, δ.decimals = none →
      (sceneCopy f δ tk src).2.timestamp = src.timestamp + δ.val) ∧
    (∀ (δ : PyDecimal) (d : ℕ), δ.decimals = some d →
      (sceneCopy f δ tk src).2.timestamp = pyRound (src.timestamp + δ.val) d) ∧
    (∀ δ : PyDecimal, ∀ ind ∈ src.inds, ∃ ni ∈ (sceneCopy f δ tk src).2.inds,
      ni.name = ind.name ∧ (ind.is_a.Nodup → ni.is_a = ind.is_a) ∧
      ∀ p : String, ni.props p =
        if p ∈ tk ∧ p ∈ ind.propNames then (ind.props p).map (trVal (canonMap src))
        else []) ∧
    (∀ sortKey : Ind → ℤ,
      (sceneSimulate f ⟨0, none⟩ tk sortKey (fun _ => generic_simulate f) src).timestamp =
        src.timestamp ∧
      ∀ ind ∈ src.inds,
      ∃ ni ∈ (sceneSimulate f ⟨0, none⟩ tk sortKey (fun _ => generic_simulate f) src).inds,
        ni.name = ind.name ∧
        ∀ p : String, p ∈ ["hasGeometry", "asWKT", "has_height", "comment"] ++ tk →
          p ∈ ind.propNames → ind.props p ≠ [] →
          ni.props p = (ind.props p).map (trVal (canonMap src))) := by
  refine ⟨?_, ?_, ?_, ?_⟩
  · intro δ hδ
    simp [sceneCopy, hδ]
  · intro δ d hδ
    simp [sceneCopy, hδ]
  · intro δ ind hmem
    rw [sceneCopy_inds f tk δ src hn hi]
    obtain ⟨k, hklt, hkeq⟩ := List.getElem_of_mem hmem
    have hkenum : (k, ind) ∈ src.inds.enum := by
      rw [List.mem_enum_iff_getElem?, List.getElem?_eq_getElem hklt, hkeq]
    refine ⟨_, List.mem_map_of_mem _ hkenum, rfl, ?_, ?_⟩
    · intro hcl
      exact copyClasses_nodup ind.is_a hcl
    · intro p
      exact copyProps_apply f tk (canonMap src) ind p (hprop ind hmem).1
        ((hprop ind hmem).2 p).1 ((hprop ind hmem).2 p).2
  · intro sortKey
    constructor
    · show (sceneCopy f ⟨0, none⟩ (["hasGeometry", "asWKT", "has_height", "comment"] ++ tk)
        src).2.timestamp = src.timestamp
      simp [sceneCopy]
    · intro ind hmem
      rw [sceneSimulate_generic_inds,
        sceneCopy_inds f (["hasGeometry", "asWKT", "has_height", "comment"] ++ tk)
          ⟨0, none⟩ src hn hi]
      obtain ⟨k, hklt, hkeq⟩ := List.getElem_of_mem hmem
      have hkenum : (k, ind) ∈ src.inds.enum := by
        rw [List.mem_enum_iff_getElem?, List.getElem?_eq_getElem hklt, hkeq]
      have hmem0 : ({ id := k, name := ind.name, is_a := copyClasses ind.is_a,
                      propNames := [],
                      props := copyProps f
                        (["hasGeometry", "asWKT", "has_height", "comment"] ++ tk)
                        (canonMap src) ind (fun _ => []) } : Ind) ∈
          src.inds.enum.map (fun q : ℕ × Ind =>
            ({ id := q.1, name := q.2.name, is_a := copyClasses q.2.is_a,
                propNames := [],
                props := copyProps f
                  (["hasGeometry", "asWKT", "has_height", "comment"] ++ tk)
                  (canonMap src) q.2 (fun _ => []) } : Ind)) :=
        List.mem_map_of_mem _ hkenum
      refine ⟨_, List.mem_map_of_mem _ hmem0, ?_, ?_⟩
      · exact (foldl_genStep_preserve f _ _ _).2.1
      · intro p hpke hpnames hpne
        have hcp := copyProps_apply f
          (["hasGeometry", "asWKT", "has_height", "comment"] ++ tk)
          (canonMap src) ind p (hprop ind hmem).1
          ((hprop ind hmem).2 p).1 ((hprop ind hmem).2 p).2
        have hcp2 : copyProps f (["hasGeometry", "asWKT", "has_height", "comment"] ++ tk)
            (canonMap src) ind (fun _ => []) p =
            (ind.props p).map (trVal (canonMap src)) := by
          rw [hcp, if_pos ⟨hpke, hpnames⟩]
        have hne2 : copyProps f (["hasGeometry", "asWKT", "has_height", "comment"] ++ tk)
            (canonMap src) ind (fun _ => []) p ≠ [] := by
          rw [hcp2]
          exact fun hc => hpne (List.map_eq_nil.mp hc)
        exact ((foldl_genStep_preserve f _ _ _).2.2.2 p hne2).trans hcp2

/-- C7 witness: the characterisation applied to the concrete one-vehicle
scene, with delta_t = 2 (no decimal dot) for the copy and delta_t = 0 for
the generic simulate step. -/
theorem C7_witness :
    (sceneCopy (fun _ => false) ⟨2, none⟩ [] w7scene).2.timestamp =
      w7scene.timestamp + 2 ∧
    (sceneSimulate (fun _ => false) ⟨0, none⟩ [] (fun _ => 0)
        (fun _ => generic_simulate (fun _ => false)) w7scene).timestamp =
      w7scene.timestamp ∧
    ∃ ni ∈ (sceneSimulate (fun _ => false) ⟨0, none⟩ [] (fun _ => 0)
        (fun _ => generic_simulate (fun _ => false)) w7scene).inds,
      ni.name = w7ind.name ∧
      ∀ p : String,
        p ∈ ["hasGeometry", "asWKT", "has_height", "comment"] ++ ([] : List String) →
        p ∈ w7ind.propNames → w7ind.props p ≠ [] →
        ni.props p = (w7ind.props p).map (trVal (canonMap w7scene)) := by
  have hn : (w7scene.inds.map (·.name)).Nodup := by simp [w7scene, w7ind]
  have hi : (w7scene.inds.map (·.id)).Nodup := by simp [w7scene, w7ind]
  have hprop : ∀ ind ∈ w7scene.inds, ind.propNames.Nodup ∧ ∀ p : String,
      ((fun _ => false) p = true → (ind.props p).length ≤ 1) ∧
      ((ind.props p).map (trVal (canonMap w7scene))).Nodup := by
    intro ind hmem
    have hind : ind = w7ind := by simpa [w7scene] using hmem
    subst hind
    refine ⟨by simp [w7ind], fun p => ⟨fun hc => absurd hc (by simp), ?_⟩⟩
    by_cases hp : p = "hasGeometry"
    · subst hp
      simp [w7ind, trVal, canonMap, w7scene, List.enum]
    · simp [w7ind, hp]
  have hmain := C7_scene_copy_characterisation (fun _ => false) [] w7scene hn hi hprop
  refine ⟨hmain.1 ⟨2, none⟩ rfl, (hmain.2.2.2 (fun _ => 0)).1, ?_⟩
  exact (hmain.2.2.2 (fun _ => 0)).2 w7ind (by simp [w7scene])

end PyAuto
